import Mathlib

/-! # FakeHttpClient / CS260_Assignment3_Client: a shallow embedding

Both programs are a single `main` that talks to WinSock.  The operating system is an
explicit environment `Env`: the value every system call returns is read from it, and the
program is a function from its arguments and the environment to the list of system calls
it made, what it wrote to standard output, and its exit status.

* C strings are lists of `Char`, one `Char` per byte, without the terminating zero.
* `int` variables are `Int`; pointers into a buffer are `Nat` offsets from its start.
* The two polling loops (`do { ... } while (res != 0);`) consume one scripted result per
  iteration; when the script is used up the loop is still polling (`LoopEnd.pending`).
* Standard output is the sequence of texts handed to `std::cout` and `printf`; what the
  C runtime does with them afterwards is below the model.
* Diagnostics written to `std::cerr` are not part of the model.
* A read or write outside the receive buffer is undefined behaviour in the sources; the
  model stops there (`Ctl.fault`).
-/

set_option autoImplicit false

namespace FakeHttp

/-! ## Constants of the platform headers and of the sources -/

/-- WinSock2.h: `SOCKET_ERROR`. -/
def SOCKET_ERROR : Int := -1

/-- The header errno.h: `EAGAIN`. -/
def EAGAIN : Int := 11

/-- WinSock2.h: `WSAEWOULDBLOCK`. -/
def WSAEWOULDBLOCK : Int := 10035

/-- WinSock2.h: `SD_SEND`. -/
def SD_SEND : Int := 1

/-- WinSock2.h: `SD_BOTH`. -/
def SD_BOTH : Int := 2

/-- Both sources, line 25: `const int RECV_BUFFER_LEN = 1500;`. -/
def RECV_BUFFER_LEN : Nat := 1500

/-- The zero byte that terminates a C string. -/
def NUL : Char := Char.ofNat 0

/-- A C string: its bytes, without the terminating zero. -/
abbrev CStr := List Char

/-! ## What the operating system returns -/

/-- The outcome of one `send` call: `res == SOCKET_ERROR` with the value of
`WSAGetLastError()`, or `res = n >= 0` bytes accepted. -/
inductive SendResult where
  | error (lastError : Int)
  | ok (n : Nat)
  deriving DecidableEq, Repr

/-- The outcome of one `recv` call: `res == SOCKET_ERROR` with the value of
`WSAGetLastError()`, or `res = data.length >= 0` and `data` stored at the buffer pointer. -/
inductive RecvResult where
  | error (lastError : Int)
  | ok (data : List Char)
  deriving DecidableEq, Repr

/-- The test `(lastError != EAGAIN) && (lastError != WSAEWOULDBLOCK)` of both loops. -/
def hardError (lastError : Int) : Bool :=
  (lastError != EAGAIN) && (lastError != WSAEWOULDBLOCK)

/-! ## The `do { ... } while (res != 0);` driver -/

/-- How one iteration of a polling loop leaves the loop body. -/
inductive Ctl (σ : Type) where
  /-- The result is not 0 (`res != 0`): the loop condition holds, the body runs again. -/
  | next (st : σ)
  /-- The result is 0 (`res == 0`): the loop condition fails, control leaves the loop. -/
  | exit (st : σ)
  /-- The statement `goto end_socket;` inside the body. -/
  | gotoEndSocket
  /-- A read or write outside the receive buffer (undefined behaviour). -/
  | fault
  deriving Repr

/-- How a polling loop ends. -/
inductive LoopEnd (σ : Type) where
  /-- The loop condition failed; execution continues after the loop. -/
  | fallthrough (st : σ)
  /-- The body jumped to `end_socket`. -/
  | gotoEndSocket
  /-- A read or write outside the receive buffer (undefined behaviour). -/
  | fault
  /-- The script of results is used up and the loop is still polling. -/
  | pending (st : σ)
  deriving Repr

/-- The run of a polling loop: the log of its iterations and how it ended. -/
structure LoopRun (σ ι : Type) where
  log : List ι
  fin : LoopEnd σ

/-- The loop `do { body } while (res != 0);`, one scripted result per iteration. -/
def doWhile {σ ρ ι : Type} (body : σ → ρ → List ι × Ctl σ) : σ → List ρ → LoopRun σ ι
  | st, [] => ⟨[], .pending st⟩
  | st, r :: rest =>
    match body st r with
    | (its, .next st') =>
      let run := doWhile body st' rest
      ⟨its ++ run.log, run.fin⟩
    | (its, .exit st') => ⟨its, .fallthrough st'⟩
    | (its, .gotoEndSocket) => ⟨its, .gotoEndSocket⟩
    | (its, .fault) => ⟨its, .fault⟩

/-! ## The send loop (both sources) -/

/-- The send cursor: `sendBuffer` as an offset into `message`, and `sendBufferLength`. -/
structure SendState where
  sendBuffer : Nat
  sendBufferLength : Int
  deriving DecidableEq, Repr

/-- One `send` call: the cursor it was made with and what it returned. -/
structure SendIter where
  off : Nat
  len : Int
  res : SendResult
  deriving DecidableEq, Repr

/-- The body of the send loop.
```
res = send(tcpSocket, sendBuffer, sendBufferLength, 0);
if (res == SOCKET_ERROR) {
    int lastError = WSAGetLastError();
    if ((lastError != EAGAIN) && (lastError != WSAEWOULDBLOCK)) { ...; goto end_socket; }
} else { sendBuffer += res; sendBufferLength -= res; }
... while (res != 0);
``` -/
def sendBody (st : SendState) (r : SendResult) : List SendIter × Ctl SendState :=
  let it : SendIter := ⟨st.sendBuffer, st.sendBufferLength, r⟩
  match r with
  | .error lastError =>
    if hardError lastError then ([it], .gotoEndSocket)
    else ([it], .next st)
  | .ok res =>
    let st' : SendState := ⟨st.sendBuffer + res, st.sendBufferLength - res⟩
    if res ≠ 0 then ([it], .next st') else ([it], .exit st')

/-- The send loop on the request `message`:
`sendBuffer = message.c_str(); sendBufferLength = (int)message.length(); do ... while`. -/
def sendLoop (message : CStr) (sends : List SendResult) : LoopRun SendState SendIter :=
  doWhile sendBody ⟨0, message.length⟩ sends

/-- The bytes one `send` call handed over to the socket: the first `n` bytes at the
cursor when it returned `n`, nothing when it returned `SOCKET_ERROR`. -/
def SendIter.accepted (message : CStr) (it : SendIter) : List Char :=
  match it.res with
  | .ok n => (message.drop it.off).take n
  | .error _ => []

/-- The length of a successful partial write, zero for a failed call. -/
def SendIter.written (it : SendIter) : Nat :=
  match it.res with
  | .ok n => n
  | .error _ => 0

/-- Every successful result is at most the length requested. -/
def SendIter.honoured (it : SendIter) : Prop :=
  ∀ n, it.res = .ok n → (n : Int) ≤ it.len

/-- A successful result is zero only when zero bytes were requested. -/
def SendIter.progress (it : SendIter) : Prop :=
  it.res = .ok 0 → it.len ≤ 0

/-! ## The receive buffer -/

/-- The receive buffer `recvBufferOriginal`: `RECV_BUFFER_LEN` bytes of memory. -/
abbrev Buffer := List Char

/-- The call `ZeroMemory(recvBuffer, RECV_BUFFER_LEN)` on the fresh buffer. -/
def zeroBuffer : Buffer := List.replicate RECV_BUFFER_LEN NUL

/-- The call `memset(recvBufferOriginal + off, 0, n)`; `none` when it leaves the buffer. -/
def memset0 (buf : Buffer) (off : Nat) (n : Int) : Option Buffer :=
  if 0 ≤ n ∧ off + n.toNat ≤ buf.length then
    some (buf.take off ++ List.replicate n.toNat NUL ++ buf.drop (off + n.toNat))
  else none

/-- The bytes `data` stored at `recvBufferOriginal + off`; `none` when they leave the
buffer. -/
def store (buf : Buffer) (off : Nat) (data : List Char) : Option Buffer :=
  if off + data.length ≤ buf.length then
    some (buf.take off ++ data ++ buf.drop (off + data.length))
  else none

/-- The buffer read as a C string from `recvBufferOriginal + off`: the bytes before the
first zero byte; `none` when there is no zero byte before the end of the buffer. -/
def cstr (buf : Buffer) (off : Nat) : Option (List Char) :=
  if NUL ∈ buf.drop off then some ((buf.drop off).takeWhile (fun c => c != NUL)) else none

/-- The receive cursor: the buffer's contents, `recvBuffer` as an offset from
`recvBufferOriginal`, and `recvBufferLength`. -/
structure RecvState where
  buf : Buffer
  recvBuffer : Nat
  recvBufferLength : Int
  deriving DecidableEq, Repr

/-- The state set up by the declarations of `main` (lines 56 to 59 of both sources). -/
def RecvState.init : RecvState := ⟨zeroBuffer, 0, RECV_BUFFER_LEN⟩

/-- One `recv` call: the cursor it was made with (`recv` is asked for `len - 1` bytes at
offset `off`), what it returned, and the text the iteration wrote to standard output
with the offset the text was read from. -/
structure RecvIter where
  off : Nat
  len : Int
  res : RecvResult
  printed : Option (Nat × List Char)
  deriving DecidableEq, Repr

/-- The text an iteration wrote to standard output. -/
def RecvIter.text (it : RecvIter) : List Char :=
  match it.printed with
  | some (_, s) => s
  | none => []

/-- The bytes a `recv` result carries: the data of a successful one, nothing otherwise. -/
def RecvResult.bytes (r : RecvResult) : List Char :=
  match r with
  | .ok d => d
  | .error _ => []

/-- The bytes an iteration received from the peer. -/
def RecvIter.data (it : RecvIter) : List Char := it.res.bytes

/-- Every successful result is at most the length requested, `recvBufferLength - 1`. -/
def RecvIter.honoured (it : RecvIter) : Prop :=
  ∀ d, it.res = .ok d → (d.length : Int) ≤ it.len - 1

/-! ## The receive loops -/

namespace CS260_Assignment3_Client

/-- The body of the receive loop of CS260_Assignment3_Client.cpp (lines 171 to 204);
`IMMEDIATE_MODE` is the constant of line 26 (`1` in the source).
```
memset(recvBuffer, 0, recvBufferLength);
res = recv(tcpSocket, recvBuffer, recvBufferLength - 1, 0);
if (res == SOCKET_ERROR) {
    int lastError = WSAGetLastError();
    if ((lastError != EAGAIN) && (lastError != WSAEWOULDBLOCK)) { ...; goto end_socket; }
} else {
    if (IMMEDIATE_MODE) { std::cout << recvBuffer; }
    else {
        recvBuffer += res; recvBufferLength -= res;
        if (recvBufferLength <= 1) {
            std::cout << recvBufferOriginal;
            recvBufferLength = RECV_BUFFER_LEN; recvBuffer = recvBufferOriginal;
            ZeroMemory(recvBuffer, RECV_BUFFER_LEN);
        }
    }
}
... while (res != 0);
``` -/
def recvBody (IMMEDIATE_MODE : Bool) (st : RecvState) (r : RecvResult) :
    List RecvIter × Ctl RecvState :=
  match memset0 st.buf st.recvBuffer st.recvBufferLength with
  | none => ([], .fault)
  | some buf0 =>
    let call : RecvIter := ⟨st.recvBuffer, st.recvBufferLength, r, none⟩
    match r with
    | .error lastError =>
      if hardError lastError then ([call], .gotoEndSocket)
      else ([call], .next ⟨buf0, st.recvBuffer, st.recvBufferLength⟩)
    | .ok data =>
      match store buf0 st.recvBuffer data with
      | none => ([call], .fault)
      | some buf1 =>
        let res := data.length
        if IMMEDIATE_MODE then
          match cstr buf1 st.recvBuffer with
          | none => ([call], .fault)
          | some s =>
            let it : RecvIter := ⟨st.recvBuffer, st.recvBufferLength, r, some (st.recvBuffer, s)⟩
            let st' : RecvState := ⟨buf1, st.recvBuffer, st.recvBufferLength⟩
            if res ≠ 0 then ([it], .next st') else ([it], .exit st')
        else
          let recvBuffer := st.recvBuffer + res
          let recvBufferLength := st.recvBufferLength - res
          if recvBufferLength ≤ 1 then
            match cstr buf1 0 with
            | none => ([call], .fault)
            | some s =>
              match memset0 buf1 0 RECV_BUFFER_LEN with
              | none => ([call], .fault)
              | some buf2 =>
                let it : RecvIter := ⟨st.recvBuffer, st.recvBufferLength, r, some (0, s)⟩
                let st' : RecvState := ⟨buf2, 0, RECV_BUFFER_LEN⟩
                if res ≠ 0 then ([it], .next st') else ([it], .exit st')
          else
            let st' : RecvState := ⟨buf1, recvBuffer, recvBufferLength⟩
            if res ≠ 0 then ([call], .next st') else ([call], .exit st')

/-- The receive loop of CS260_Assignment3_Client.cpp. -/
def recvLoop (IMMEDIATE_MODE : Bool) (recvs : List RecvResult) : LoopRun RecvState RecvIter :=
  doWhile (recvBody IMMEDIATE_MODE) RecvState.init recvs

/-- The terminal flush after the loop (lines 207 to 210):
`if (!IMMEDIATE_MODE) { std::cout << recvBufferOriginal << std::endl; }`.
The result is the list of texts written; `none` when the read leaves the buffer. -/
def terminalFlush (IMMEDIATE_MODE : Bool) (st : RecvState) : Option (List (List Char)) :=
  if !IMMEDIATE_MODE then
    match cstr st.buf 0 with
    | none => none
    | some s => some [s, [Char.ofNat 10]]
  else some []

/-- Everything the receive loop and the terminal flush write to standard output, in
emission order; `none` unless the loop falls through and no read leaves the buffer. -/
def received (IMMEDIATE_MODE : Bool) (recvs : List RecvResult) : Option (List Char) :=
  match (recvLoop IMMEDIATE_MODE recvs).fin with
  | .fallthrough st =>
    match terminalFlush IMMEDIATE_MODE st with
    | some fl => some (((recvLoop IMMEDIATE_MODE recvs).log.map RecvIter.text).flatten ++ fl.flatten)
    | none => none
  | _ => none

end CS260_Assignment3_Client

namespace FakeHttpClient

/-- The body of the receive loop of FakeHttpClient.cpp (lines 183 to 204).
```
memset(recvBuffer, 0, recvBufferLength);
res = recv(tcpSocket, recvBuffer, recvBufferLength - 1, 0);
if (res == SOCKET_ERROR) {
    int lastError = WSAGetLastError();
    if ((lastError != EAGAIN) && (lastError != WSAEWOULDBLOCK)) { ...; goto end_socket; }
} else {
    if (res > 0) { recvBuffer[res] = 0; printf("%s", recvBuffer); }
}
... while (res != 0);
``` -/
def recvBody (st : RecvState) (r : RecvResult) : List RecvIter × Ctl RecvState :=
  match memset0 st.buf st.recvBuffer st.recvBufferLength with
  | none => ([], .fault)
  | some buf0 =>
    let call : RecvIter := ⟨st.recvBuffer, st.recvBufferLength, r, none⟩
    match r with
    | .error lastError =>
      if hardError lastError then ([call], .gotoEndSocket)
      else ([call], .next ⟨buf0, st.recvBuffer, st.recvBufferLength⟩)
    | .ok data =>
      match store buf0 st.recvBuffer data with
      | none => ([call], .fault)
      | some buf1 =>
        let res := data.length
        if res > 0 then
          match store buf1 (st.recvBuffer + res) [NUL] with
          | none => ([call], .fault)
          | some buf2 =>
            match cstr buf2 st.recvBuffer with
            | none => ([call], .fault)
            | some s =>
              let it : RecvIter := ⟨st.recvBuffer, st.recvBufferLength, r, some (st.recvBuffer, s)⟩
              ([it], .next ⟨buf2, st.recvBuffer, st.recvBufferLength⟩)
        else ([call], .exit ⟨buf1, st.recvBuffer, st.recvBufferLength⟩)

/-- The receive loop of FakeHttpClient.cpp. -/
def recvLoop (recvs : List RecvResult) : LoopRun RecvState RecvIter :=
  doWhile recvBody RecvState.init recvs

/-- Everything the receive loop writes to standard output, in emission order; `none`
unless the loop falls through. -/
def received (recvs : List RecvResult) : Option (List Char) :=
  match (recvLoop recvs).fin with
  | .fallthrough _ => some ((recvLoop recvs).log.map RecvIter.text).flatten
  | _ => none

end FakeHttpClient

/-! ## Argument parsing -/

/-- The value `EOF` of stdio.h, returned by `sscanf_s` on an input failure before the
first conversion. -/
def EOF : Int := -1

/-- The outcome of matching the literal characters of a format against the input. -/
inductive LitMatch where
  | matched (rest : List Char)
  | mismatch
  | inputEnd
  deriving DecidableEq, Repr

/-- Matching the literal (non-blank) characters of a `scanf` format: each must equal
the next input character. -/
def matchLiteral : List Char → List Char → LitMatch
  | [], s => .matched s
  | _ :: _, [] => .inputEnd
  | c :: cs, d :: s => if c = d then matchLiteral cs s else .mismatch

/-- The conversion `%w[^stop]` of `scanf`: the longest run of at most `w` input
characters different from `stop`, and the input left after it. -/
def scanExcept (stop : Char) : Nat → List Char → List Char × List Char
  | 0, s => ([], s)
  | _ + 1, [] => ([], [])
  | w + 1, c :: s =>
    if c = stop then ([], c :: s)
    else (c :: (scanExcept stop w s).1, (scanExcept stop w s).2)

/-- What `sscanf_s(argv[1], "http://%255[^/]%255[^\n]", url, 256, resource, 256)` leaves
behind: the number of conversions and the two (zero-initialised) buffers. -/
structure UrlScan where
  tokens : Int
  url : CStr
  resource : CStr
  deriving DecidableEq, Repr

/-- The call `sscanf_s(argv[1], "http://%255[^/]%255[^\n]", url, 256, resource, 256)`
(the C library, following the C standard: `EOF` when the input ends before the first
conversion, otherwise the number of conversions done before the first failure). -/
def sscanf_url (arg : CStr) : UrlScan :=
  match matchLiteral "http://".toList arg with
  | .inputEnd => ⟨EOF, [], []⟩
  | .mismatch => ⟨0, [], []⟩
  | .matched [] => ⟨EOF, [], []⟩
  | .matched (c :: rest) =>
    let host := scanExcept '/' 255 (c :: rest)
    if host.1 = [] then ⟨0, [], []⟩
    else
      let path := scanExcept (Char.ofNat 10) 255 host.2
      if path.1 = [] then ⟨1, host.1, []⟩ else ⟨2, host.1, path.1⟩

/-- The lines `if (tokens < 2) { strcpy_s(resource, "/"); }`. -/
def defaultResource (scan : UrlScan) : CStr :=
  if scan.tokens < 2 then ['/'] else scan.resource

/-- The function `isspace` of ctype.h in the C locale. -/
def isspace (c : Char) : Bool :=
  c = ' ' || (9 ≤ c.toNat && c.toNat ≤ 13)

/-- The number of conversions of `sscanf_s(argv[2], "%hu", &proxyPort)` (the C library):
blanks are skipped, a sign is optional, then at least one decimal digit is needed.  The
value stored in `proxyPort` only reaches `connect` and is not modelled. -/
def sscanf_hu (arg : CStr) : Int :=
  match arg.dropWhile isspace with
  | [] => EOF
  | c :: rest =>
    match (if c = '+' ∨ c = '-' then rest else c :: rest) with
    | [] => 0
    | d :: _ => if d.isDigit then 1 else 0

/-! ## The request -/

namespace CS260_Assignment3_Client

/-- The request built at lines 136 to 141 of CS260_Assignment3_Client.cpp. -/
def message (url resource : CStr) : CStr :=
  let message : CStr := []
  let message := message ++ ("GET ".toList ++ resource ++ " HTTP/1.1\r\n".toList)
  let message := message ++ ("Host: ".toList ++ url ++ "\r\n".toList)
  let message := message ++ "Connection: close".toList
  let message := message ++ "\r\n".toList
  let message := message ++ "\r\n".toList
  message

end CS260_Assignment3_Client

namespace FakeHttpClient

/-- The request built at lines 147 to 153 of FakeHttpClient.cpp. -/
def message (url resource : CStr) : CStr :=
  let message : CStr := []
  let message := message ++ ("GET ".toList ++ resource ++ " HTTP/1.1\r\n".toList)
  let message := message ++ ("Host: ".toList ++ url ++ "\r\n".toList)
  let message := message ++ "Connection: close\r\n".toList
  let message := message ++ "User-Agent: curl/8.9.1\r\n".toList
  let message := message ++ "Accept: */*\r\n".toList
  let message := message ++ "\r\n".toList
  message

end FakeHttpClient

/-! ## The environment and the run of `main` -/

/-- The value every system call returns.  Each call other than `send` and `recv` is made
at most once in a run. -/
structure Env where
  /-- The result of `WSAStartup`; 0 is success. -/
  WSAStartup : Int
  /-- The result of `inet_pton`; 1 is success. -/
  inet_pton : Int
  /-- The handle returned by `socket`; `none` is `INVALID_SOCKET`. -/
  socket : Option Nat
  /-- The result of `connect`. -/
  connect : Int
  /-- The result of `ioctlsocket` (never inspected). -/
  ioctlsocket : Int
  /-- The results of the successive `send` calls. -/
  send : List SendResult
  /-- The result of `shutdown(tcpSocket, SD_SEND)` (never inspected). -/
  shutdown_send : Int
  /-- The results of the successive `recv` calls. -/
  recv : List RecvResult
  /-- The result of `shutdown(tcpSocket, SD_BOTH)`. -/
  shutdown_both : Int
  /-- The result of `closesocket`. -/
  closesocket : Int
  /-- The result of `WSACleanup`. -/
  WSACleanup : Int

/-- The readings of `std::chrono::steady_clock::now()` at the three places of
FakeHttpClient.cpp that take one (lines 126, 140 and 227), as tick counts of the clock
(nanoseconds since its epoch). -/
structure Clock where
  now_start : Int
  now_connected : Int
  now_end : Int

/-- A system call the program made. -/
inductive Call where
  | WSAStartup
  | inet_pton
  | socket
  | connect
  | ioctlsocket
  | send (off : Nat) (len : Int) (res : SendResult)
  | shutdown (how : Int)
  | recv (off : Nat) (len : Int) (res : RecvResult)
  | closesocket
  | WSACleanup
  deriving DecidableEq, Repr

/-- An item written to standard output. -/
inductive Out where
  /-- Literal text, or bytes of the response. -/
  | text (s : List Char)
  /-- The line written by `PrintCurrentTime()` (wall-clock time, not modelled). -/
  | currentTime
  /-- The line `Connected: <d> ms`. -/
  | connected (d : Int)
  /-- The line `Total Elapsed: <d> ms`. -/
  | totalElapsed (d : Int)
  deriving DecidableEq, Repr

/-- The run of `main`: the system calls made, the standard output, and the exit status
(`none` when a polling loop is still running at the end of its script, or on a read or
write outside the receive buffer). -/
structure Run where
  calls : List Call
  out : List Out
  exit : Option Int
  deriving DecidableEq, Repr

/-- The `send` calls of the send loop as system calls. -/
def sendCalls (log : List SendIter) : List Call :=
  log.map (fun it => Call.send it.off it.len it.res)

/-- The `recv` calls of the receive loop as system calls; `recv` is asked for
`recvBufferLength - 1` bytes. -/
def recvCalls (log : List RecvIter) : List Call :=
  log.map (fun it => Call.recv it.off (it.len - 1) it.res)

/-- The standard output of the receive loop, one item per write. -/
def recvOut (log : List RecvIter) : List Out :=
  log.filterMap (fun it => it.printed.map (fun p => Out.text p.2))

/-- The count of milliseconds in a count of clock ticks:
`std::chrono::duration_cast<std::chrono::milliseconds>(d).count()` rounds towards zero. -/
def toMilliseconds (d : Int) : Int := Int.tdiv d 1000000

namespace CS260_Assignment3_Client

/-- The label `end:` (lines 235 to 243): `WSACleanup`, then `return 1` or `return 0`. -/
def label_end (env : Env) (calls : List Call) (out : List Out) : Run :=
  let calls := calls ++ [.WSACleanup]
  if env.WSACleanup ≠ 0 then ⟨calls, out, some 1⟩ else ⟨calls, out, some 0⟩

/-- The label `end_socket:` (lines 222 to 232): `closesocket`, then `end:`. -/
def end_socket (env : Env) (calls : List Call) (out : List Out) : Run :=
  let calls := calls ++ [.closesocket]
  if env.closesocket ≠ 0 then label_end env calls out
  else
    let out := out ++ [.text "Operation completed at: ".toList, .currentTime]
    label_end env calls out

/-- The function `main` of CS260_Assignment3_Client.cpp; `argv` holds the program name
and the arguments (`argc = argv.length`), `IMMEDIATE_MODE` is the constant of line 26. -/
def main (IMMEDIATE_MODE : Bool) (argv : List CStr) (env : Env) : Run :=
  match argv with
  | [_, arg1, arg2] =>
    let scan := sscanf_url arg1
    if scan.tokens < 1 then ⟨[], [], some 1⟩
    else
      let resource := defaultResource scan
      if sscanf_hu arg2 < 1 then ⟨[], [], some 1⟩
      else
        let calls := [Call.WSAStartup]
        if env.WSAStartup ≠ 0 then ⟨calls, [], some 1⟩
        else
          let calls := calls ++ [.inet_pton]
          if env.inet_pton ≠ 1 then label_end env calls []
          else
            let calls := calls ++ [.socket]
            if env.socket = none then label_end env calls []
            else
              let out := [Out.text "Operation started at: ".toList, .currentTime]
              let calls := calls ++ [.connect]
              if env.connect = SOCKET_ERROR then end_socket env calls out
              else
                let out := out ++ [.text "Connected at ".toList, .currentTime]
                let calls := calls ++ [.ioctlsocket]
                let sent := sendLoop (message scan.url resource) env.send
                let calls := calls ++ sendCalls sent.log
                match sent.fin with
                | .pending _ => ⟨calls, out, none⟩
                | .fault => ⟨calls, out, none⟩
                | .gotoEndSocket => end_socket env calls out
                | .fallthrough _ =>
                  let calls := calls ++ [.shutdown SD_SEND]
                  let out := out ++ [.text "Send complete at ".toList, .currentTime]
                  let rcvd := recvLoop IMMEDIATE_MODE env.recv
                  let calls := calls ++ recvCalls rcvd.log
                  let out := out ++ recvOut rcvd.log
                  match rcvd.fin with
                  | .pending _ => ⟨calls, out, none⟩
                  | .fault => ⟨calls, out, none⟩
                  | .gotoEndSocket => end_socket env calls out
                  | .fallthrough st =>
                    match terminalFlush IMMEDIATE_MODE st with
                    | none => ⟨calls, out, none⟩
                    | some flushed =>
                      let out := out ++ flushed.map Out.text
                      let calls := calls ++ [.shutdown SD_BOTH]
                      if env.shutdown_both ≠ 0 then end_socket env calls out
                      else end_socket env calls out
  | _ => ⟨[], [], some 1⟩

end CS260_Assignment3_Client

namespace FakeHttpClient

/-- The label `end:` (lines 234 to 242): `WSACleanup`, then `return 1` or `return 0`. -/
def label_end (env : Env) (calls : List Call) (out : List Out) : Run :=
  let calls := calls ++ [.WSACleanup]
  if env.WSACleanup ≠ 0 then ⟨calls, out, some 1⟩ else ⟨calls, out, some 0⟩

/-- The label `end_socket:` (lines 216 to 231): `closesocket`, the two durations, then
`end:`.  `start_time` and `connected_time` are the variables of line 62 as they stand
when control arrives. -/
def end_socket (env : Env) (clock : Clock) (start_time connected_time : Int)
    (calls : List Call) (out : List Out) : Run :=
  let calls := calls ++ [.closesocket]
  if env.closesocket ≠ 0 then label_end env calls out
  else
    let out := out ++ [.text "Operation Completed At: ".toList, .currentTime]
    let end_time := clock.now_end
    let connection_duration := toMilliseconds (end_time - connected_time)
    let total_duration := toMilliseconds (end_time - start_time)
    let out := out ++ [.connected connection_duration, .totalElapsed total_duration]
    label_end env calls out

/-- The function `main` of FakeHttpClient.cpp; `argv` holds the program name and the
arguments (`argc = argv.length`).  The time points of line 62 are default-constructed,
which is the clock's epoch, tick count 0. -/
def main (argv : List CStr) (env : Env) (clock : Clock) : Run :=
  let connected_time : Int := 0
  match argv with
  | [_, arg1, arg2] =>
    let scan := sscanf_url arg1
    if scan.tokens < 1 then ⟨[], [], some 1⟩
    else
      let resource := defaultResource scan
      if sscanf_hu arg2 < 1 then ⟨[], [], some 1⟩
      else
        let calls := [Call.WSAStartup]
        if env.WSAStartup ≠ 0 then ⟨calls, [], some 1⟩
        else
          let calls := calls ++ [.inet_pton]
          if env.inet_pton ≠ 1 then label_end env calls []
          else
            let calls := calls ++ [.socket]
            if env.socket = none then label_end env calls []
            else
              let out := [Out.text "Operation Started At: ".toList, .currentTime]
              let start_time := clock.now_start
              let calls := calls ++ [.connect]
              if env.connect = SOCKET_ERROR then
                end_socket env clock start_time connected_time calls out
              else
                let out := out ++ [.text "Connected At: ".toList, .currentTime]
                let connected_time := clock.now_connected
                let calls := calls ++ [.ioctlsocket]
                let sent := sendLoop (message scan.url resource) env.send
                let calls := calls ++ sendCalls sent.log
                match sent.fin with
                | .pending _ => ⟨calls, out, none⟩
                | .fault => ⟨calls, out, none⟩
                | .gotoEndSocket => end_socket env clock start_time connected_time calls out
                | .fallthrough _ =>
                  let calls := calls ++ [.shutdown SD_SEND]
                  let out := out ++ [.text "Send Complete At ".toList, .currentTime]
                  let rcvd := recvLoop env.recv
                  let calls := calls ++ recvCalls rcvd.log
                  let out := out ++ recvOut rcvd.log
                  match rcvd.fin with
                  | .pending _ => ⟨calls, out, none⟩
                  | .fault => ⟨calls, out, none⟩
                  | .gotoEndSocket => end_socket env clock start_time connected_time calls out
                  | .fallthrough _ =>
                    let calls := calls ++ [.shutdown SD_BOTH]
                    if env.shutdown_both ≠ 0 then
                      end_socket env clock start_time connected_time calls out
                    else end_socket env clock start_time connected_time calls out
  | _ => ⟨[], [], some 1⟩

end FakeHttpClient

/-! ## The three variants -/

/-- The variants of the program: CS260_Assignment3_Client.cpp with `IMMEDIATE_MODE` true
(as in the source) or false, and FakeHttpClient.cpp. -/
inductive Variant where
  | immediate
  | accumulating
  | fake
  deriving DecidableEq, Repr

/-- The body of the receive loop of a variant. -/
def Variant.recvBody : Variant → RecvState → RecvResult → List RecvIter × Ctl RecvState
  | .immediate => CS260_Assignment3_Client.recvBody true
  | .accumulating => CS260_Assignment3_Client.recvBody false
  | .fake => FakeHttpClient.recvBody

/-- The receive loop of a variant. -/
def Variant.recvLoop : Variant → List RecvResult → LoopRun RecvState RecvIter
  | .immediate => CS260_Assignment3_Client.recvLoop true
  | .accumulating => CS260_Assignment3_Client.recvLoop false
  | .fake => FakeHttpClient.recvLoop

/-- The terminal flush of a variant; FakeHttpClient.cpp has none. -/
def Variant.terminalFlush : Variant → RecvState → Option (List (List Char))
  | .immediate => CS260_Assignment3_Client.terminalFlush true
  | .accumulating => CS260_Assignment3_Client.terminalFlush false
  | .fake => fun _ => some []

/-- Everything the receive loop and the terminal flush of a variant write to standard
output, in emission order. -/
def Variant.received : Variant → List RecvResult → Option (List Char)
  | .immediate => CS260_Assignment3_Client.received true
  | .accumulating => CS260_Assignment3_Client.received false
  | .fake => FakeHttpClient.received

/-- The function `main` of a variant; only FakeHttpClient.cpp reads the clock. -/
def Variant.main : Variant → List CStr → Env → Clock → Run
  | .immediate => fun argv env _ => CS260_Assignment3_Client.main true argv env
  | .accumulating => fun argv env _ => CS260_Assignment3_Client.main false argv env
  | .fake => FakeHttpClient.main

/-- The variants that write every chunk out at once. -/
def Variant.unbuffered (v : Variant) : Prop := v = .immediate ∨ v = .fake

/-- What the terminal flush of a variant adds after the buffered text: the newline of
`std::endl` in accumulating mode, nothing otherwise. -/
def Variant.trailer (v : Variant) : List Char :=
  if v = .accumulating then [Char.ofNat 10] else []

/-! ## Predicates used by the theorems -/

section
variable {σ ρ ι : Type}

/-- A loop body that keeps the invariant `Inv` of the cursor, never faults, establishes
`Post` when it leaves the loop and `P` of every log entry, as long as the entries it logs
are `Good`. -/
def Maintains (body : σ → ρ → List ι × Ctl σ) (Inv Post : σ → Prop) (Good P : ι → Prop) : Prop :=
  ∀ st r, Inv st → (∀ it ∈ (body st r).1, Good it) →
    (∀ it ∈ (body st r).1, P it) ∧ (body st r).2 ≠ .fault ∧
    (∀ st', (body st r).2 = .next st' → Inv st') ∧
    (∀ st', (body st r).2 = .exit st' → Post st')

/-- A loop body whose input and output balance: what was pending before an iteration
followed by the iteration's input is the iteration's output followed by what is pending
after it. -/
def Balances (body : σ → ρ → List ι × Ctl σ) (Inv : σ → Prop) (Good : ι → Prop)
    (inp outp : ι → List Char) (pend : σ → List Char) : Prop :=
  ∀ st r, Inv st → (∀ it ∈ (body st r).1, Good it) →
    ∀ st', (body st r).2 = .next st' ∨ (body st r).2 = .exit st' →
      pend st ++ ((body st r).1.map inp).flatten = ((body st r).1.map outp).flatten ++ pend st'

/-- A scripted result on which the body loops again, whatever the cursor, as long as
the entries it logs are `Good`. -/
def Continues (body : σ → ρ → List ι × Ctl σ) (Inv : σ → Prop) (Good : ι → Prop) (r : ρ) :
    Prop :=
  ∀ st, Inv st → (∀ it ∈ (body st r).1, Good it) → ∃ st', (body st r).2 = .next st'

/-- A scripted result on which the body leaves the loop through its condition, whatever
the cursor. -/
def Exits (body : σ → ρ → List ι × Ctl σ) (Inv : σ → Prop) (r : ρ) : Prop :=
  ∀ st, Inv st → ∃ st', (body st r).2 = .exit st'

/-- A body that logs exactly one entry per iteration, which records the scripted
result. -/
def Logs (body : σ → ρ → List ι × Ctl σ) (Inv : σ → Prop) (resOf : ι → ρ) : Prop :=
  ∀ st r, Inv st → ∃ it, (body st r).1 = [it] ∧ resOf it = r

/-- A scripted result on which the body does not loop again, whatever the cursor. -/
def Finishes (body : σ → ρ → List ι × Ctl σ) (Inv : σ → Prop) (r : ρ) : Prop :=
  ∀ st, Inv st → ∀ st', (body st r).2 ≠ .next st'

end

/-- The bytes the send loop handed over to the socket, in order. -/
def sentBytes (message : CStr) (log : List SendIter) : List Char :=
  (log.map (SendIter.accepted message)).flatten

/-- The sum of the lengths of the successful partial writes. -/
def sentCount (log : List SendIter) : Nat :=
  (log.map SendIter.written).sum

/-- The invariant of the send cursor on the request `message`. -/
def SendInv (message : CStr) (st : SendState) : Prop :=
  (st.sendBuffer : Int) + st.sendBufferLength = message.length ∧ 0 ≤ st.sendBufferLength

/-- The invariant of the receive cursor: the buffer has `RECV_BUFFER_LEN` bytes, the
write offset and the remaining length add up to `RECV_BUFFER_LEN`, and at least two
bytes remain. -/
def RecvInv (st : RecvState) : Prop :=
  st.buf.length = RECV_BUFFER_LEN ∧
  (st.recvBuffer : Int) + st.recvBufferLength = RECV_BUFFER_LEN ∧
  2 ≤ st.recvBufferLength

/-- The bytes buffered and not yet written out: the buffer up to the write offset. -/
def RecvState.pendingBytes (st : RecvState) : List Char :=
  st.buf.take st.recvBuffer

/-- The rest of the buffer, from the write offset on, is zero. -/
def ZeroTail (st : RecvState) : Prop :=
  st.buf = st.pendingBytes ++ List.replicate st.recvBufferLength.toNat NUL

/-- The bounds of one iteration of a receive loop: at the `recv` call the write offset
and the remaining length add up to `RECV_BUFFER_LEN` and at least two bytes remain; the
bytes received end before index `RECV_BUFFER_LEN - 1`; and a text written to standard
output is free of zero bytes and its terminator (the byte at offset `start + s.length`)
is found at or before the index that follows the last byte received. -/
def RecvIter.safe (it : RecvIter) : Prop :=
  (it.off : Int) + it.len = RECV_BUFFER_LEN ∧ 2 ≤ it.len ∧
  (∀ d, it.res = .ok d → it.off + d.length ≤ RECV_BUFFER_LEN - 1) ∧
  (∀ start s, it.printed = some (start, s) →
    NUL ∉ s ∧ ∃ d, it.res = .ok d ∧ start + s.length ≤ it.off + d.length)

/-- A transient `recv` result (would-block): an error that is `EAGAIN` or
`WSAEWOULDBLOCK`. -/
def RecvResult.transient (r : RecvResult) : Prop :=
  ∃ e, r = .error e ∧ hardError e = false

/-- A `recv` result that carries data: `res > 0`. -/
def RecvResult.positive (r : RecvResult) : Prop :=
  ∃ d, r = .ok d ∧ 0 < d.length

/-- A `recv` result that is not a transient one: zero bytes, or an error other than
`EAGAIN` and `WSAEWOULDBLOCK`. -/
def RecvResult.terminal (r : RecvResult) : Prop :=
  r = .ok [] ∨ ∃ e, r = .error e ∧ hardError e = true

/-- A `send` result that is not a transient one: zero bytes, or an error other than
`EAGAIN` and `WSAEWOULDBLOCK`. -/
def SendResult.terminal (r : SendResult) : Prop :=
  r = .ok 0 ∨ ∃ e, r = .error e ∧ hardError e = true

/-- The ways a run of `main` can end, by the cleanup it went through. -/
inductive Ending (env : Env) (label_end end_socket : List Call → List Out → Run) (run : Run) :
    Prop where
  | unfinished (h : run.exit = none)
  | usage (h : run.calls = [])
  | startup (h : run.calls = [.WSAStartup]) (hs : env.WSAStartup ≠ 0)
  | cleanup (pre : List Call) (out : List Out) (h : run = label_end pre out)
      (h1 : Call.WSACleanup ∉ pre) (h2 : Call.socket ∈ pre → env.socket = none)
  | close (pre : List Call) (out : List Out) (h : run = end_socket pre out)
      (h1 : Call.closesocket ∉ pre) (h2 : Call.WSACleanup ∉ pre)

/-! # Theorems -/

section
variable {σ ρ ι : Type}

theorem doWhile_nil (body : σ → ρ → List ι × Ctl σ) (st : σ) :
    doWhile body st [] = ⟨[], .pending st⟩ := rfl

theorem doWhile_cons_next (body : σ → ρ → List ι × Ctl σ) (st st' : σ) (r : ρ) (rest : List ρ)
    (its : List ι) (h : body st r = (its, .next st')) :
    doWhile body st (r :: rest)
      = ⟨its ++ (doWhile body st' rest).log, (doWhile body st' rest).fin⟩ := by
  simp [doWhile, h]

theorem doWhile_cons_exit (body : σ → ρ → List ι × Ctl σ) (st st' : σ) (r : ρ) (rest : List ρ)
    (its : List ι) (h : body st r = (its, .exit st')) :
    doWhile body st (r :: rest) = ⟨its, .fallthrough st'⟩ := by
  simp [doWhile, h]

theorem doWhile_cons_goto (body : σ → ρ → List ι × Ctl σ) (st : σ) (r : ρ) (rest : List ρ)
    (its : List ι) (h : body st r = (its, .gotoEndSocket)) :
    doWhile body st (r :: rest) = ⟨its, .gotoEndSocket⟩ := by
  simp [doWhile, h]

theorem doWhile_cons_fault (body : σ → ρ → List ι × Ctl σ) (st : σ) (r : ρ) (rest : List ρ)
    (its : List ι) (h : body st r = (its, .fault)) :
    doWhile body st (r :: rest) = ⟨its, .fault⟩ := by
  simp [doWhile, h]

/-- The invariant of a body is an invariant of the loop. -/
theorem doWhile_maintains (body : σ → ρ → List ι × Ctl σ) (Inv Post : σ → Prop)
    (Good P : ι → Prop) (hbody : Maintains body Inv Post Good P) :
    ∀ (script : List ρ) (st : σ), Inv st →
      (∀ it ∈ (doWhile body st script).log, Good it) →
      (∀ it ∈ (doWhile body st script).log, P it) ∧ (doWhile body st script).fin ≠ .fault ∧
      (∀ st', (doWhile body st script).fin = .fallthrough st' → Post st') ∧
      (∀ st', (doWhile body st script).fin = .pending st' → Inv st') := by
  intro script
  induction script with
  | nil =>
    intro st hst _
    refine ⟨by simp [doWhile_nil], by simp [doWhile_nil], by simp [doWhile_nil], ?_⟩
    intro st' h
    simp [doWhile_nil] at h
    exact h ▸ hst
  | cons r rest ih =>
    intro st hst hgood
    rcases hb : body st r with ⟨its, ctl⟩
    have hk := hbody st r hst
    rw [hb] at hk
    cases ctl with
    | next st1 =>
      rw [doWhile_cons_next body st st1 r rest its hb] at hgood ⊢
      simp only [List.mem_append] at hgood ⊢
      obtain ⟨hP, _, hI, _⟩ := hk (fun it hit => hgood it (Or.inl hit))
      obtain ⟨hP', hF', hI'⟩ := ih st1 (hI st1 rfl) (fun it hit => hgood it (Or.inr hit))
      refine ⟨?_, hF', hI'⟩
      intro it hit
      rcases hit with hit | hit
      · exact hP it hit
      · exact hP' it hit
    | exit st1 =>
      rw [doWhile_cons_exit body st st1 r rest its hb] at hgood ⊢
      obtain ⟨hP, _, _, hI⟩ := hk hgood
      refine ⟨hP, by simp, ?_, by simp⟩
      intro st' h
      simp at h
      exact h ▸ hI st1 rfl
    | gotoEndSocket =>
      rw [doWhile_cons_goto body st r rest its hb] at hgood ⊢
      obtain ⟨hP, _, _⟩ := hk hgood
      exact ⟨hP, by simp, by simp, by simp⟩
    | fault =>
      rw [doWhile_cons_fault body st r rest its hb] at hgood
      obtain ⟨_, hF, _⟩ := hk hgood
      exact absurd rfl hF

/-- The balance of a body is a balance of the loop. -/
theorem doWhile_balances (body : σ → ρ → List ι × Ctl σ) (Inv Post : σ → Prop)
    (Good P : ι → Prop) (inp outp : ι → List Char) (pend : σ → List Char)
    (hkeeps : Maintains body Inv Post Good P) (hbal : Balances body Inv Good inp outp pend) :
    ∀ (script : List ρ) (st : σ), Inv st →
      (∀ it ∈ (doWhile body st script).log, Good it) →
      ∀ st', (doWhile body st script).fin = .fallthrough st' ∨
          (doWhile body st script).fin = .pending st' →
        pend st ++ ((doWhile body st script).log.map inp).flatten
          = ((doWhile body st script).log.map outp).flatten ++ pend st' := by
  intro script
  induction script with
  | nil =>
    intro st _ _ st' h
    simp [doWhile_nil] at h
    simp [doWhile_nil, h]
  | cons r rest ih =>
    intro st hst hgood st' hfin
    rcases hb : body st r with ⟨its, ctl⟩
    have hk := hkeeps st r hst
    have hl := hbal st r hst
    rw [hb] at hk hl
    cases ctl with
    | next st1 =>
      rw [doWhile_cons_next body st st1 r rest its hb] at hgood hfin ⊢
      simp only [List.mem_append] at hgood
      have hg1 : ∀ it ∈ its, Good it := fun it hit => hgood it (Or.inl hit)
      obtain ⟨_, _, hI, _⟩ := hk hg1
      have h1 := hl hg1 st1 (Or.inl rfl)
      have h2 := ih st1 (hI st1 rfl) (fun it hit => hgood it (Or.inr hit)) st' hfin
      simp only [List.map_append, List.flatten_append, List.append_assoc] at h1 h2 ⊢
      rw [← List.append_assoc, h1, List.append_assoc, h2]
    | exit st1 =>
      rw [doWhile_cons_exit body st st1 r rest its hb] at hgood hfin ⊢
      simp at hfin
      subst hfin
      exact hl hgood st1 (Or.inr rfl)
    | gotoEndSocket =>
      rw [doWhile_cons_goto body st r rest its hb] at hfin
      simp at hfin
    | fault =>
      rw [doWhile_cons_fault body st r rest its hb] at hfin
      simp at hfin

/-- A loop whose script holds a finishing result is not left polling. -/
theorem doWhile_finishes (body : σ → ρ → List ι × Ctl σ) (Inv Post : σ → Prop)
    (Good P : ι → Prop) (hkeeps : Maintains body Inv Post Good P) :
    ∀ (script : List ρ) (st : σ), Inv st →
      (∀ it ∈ (doWhile body st script).log, Good it) →
      (∃ r ∈ script, Finishes body Inv r) →
      ∀ st', (doWhile body st script).fin ≠ .pending st' := by
  intro script
  induction script with
  | nil =>
    intro st _ _ h
    simp at h
  | cons r rest ih =>
    intro st hst hgood hex st'
    rcases hb : body st r with ⟨its, ctl⟩
    have hk := hkeeps st r hst
    rw [hb] at hk
    cases ctl with
    | next st1 =>
      rw [doWhile_cons_next body st st1 r rest its hb] at hgood ⊢
      simp only [List.mem_append] at hgood
      obtain ⟨_, _, hI, _⟩ := hk (fun it hit => hgood it (Or.inl hit))
      obtain ⟨r', hr', he⟩ := hex
      rcases List.mem_cons.mp hr' with rfl | hr'
      · exact absurd (by rw [hb]) (he st hst st1)
      · exact ih st1 (hI st1 rfl) (fun it hit => hgood it (Or.inr hit)) ⟨r', hr', he⟩ st'
    | exit st1 =>
      rw [doWhile_cons_exit body st st1 r rest its hb]
      simp
    | gotoEndSocket =>
      rw [doWhile_cons_goto body st r rest its hb]
      simp
    | fault =>
      rw [doWhile_cons_fault body st r rest its hb]
      simp

end

/-! ## The send loop -/

theorem sendBody_log (st : SendState) (r : SendResult) :
    (sendBody st r).1 = [⟨st.sendBuffer, st.sendBufferLength, r⟩] := by
  unfold sendBody
  cases r with
  | error e => by_cases h : hardError e = true <;> simp [h]
  | ok n => by_cases h : n = 0 <;> simp [h]

theorem sendBody_maintains (message : CStr) :
    Maintains sendBody (SendInv message)
      (fun st => SendInv message st ∧ st.sendBufferLength ≤ 0)
      (fun it => it.honoured ∧ it.progress)
      (fun it => (it.accepted message).length = it.written) := by
  intro st r hst hgood
  rw [sendBody_log] at hgood ⊢
  have hg := hgood _ (List.mem_singleton.mpr rfl)
  obtain ⟨h1, h2⟩ := hst
  cases r with
  | error e =>
    refine ⟨?_, ?_, ?_, ?_⟩
    · intro it hit
      rw [List.mem_singleton.mp hit]
      simp [SendIter.accepted, SendIter.written]
    · unfold sendBody; by_cases h : hardError e = true <;> simp [h]
    · intro st'; unfold sendBody
      by_cases h : hardError e = true <;> simp [h]
      rintro rfl; exact ⟨h1, h2⟩
    · intro st'; unfold sendBody
      by_cases h : hardError e = true <;> simp [h]
  | ok n =>
    have hn : (n : Int) ≤ st.sendBufferLength := hg.1 n rfl
    refine ⟨?_, ?_, ?_, ?_⟩
    · intro it hit
      rw [List.mem_singleton.mp hit]
      simp only [SendIter.accepted, SendIter.written, List.length_take, List.length_drop]
      omega
    · unfold sendBody; by_cases h : n = 0 <;> simp [h]
    · intro st'; unfold sendBody
      by_cases h : n = 0 <;> simp [h]
      rintro rfl
      refine ⟨?_, ?_⟩ <;> simp only [] <;> push_cast <;> omega
    · intro st'; unfold sendBody
      by_cases h : n = 0 <;> simp [h]
      rintro rfl
      have hp : st.sendBufferLength ≤ 0 := hg.2 (by simp [h])
      refine ⟨⟨?_, ?_⟩, ?_⟩ <;> simp only [] <;> omega

theorem sendBody_balances (message : CStr) :
    Balances sendBody (SendInv message) (fun it => it.honoured ∧ it.progress)
      (SendIter.accepted message) (fun _ => []) (fun st => message.take st.sendBuffer) := by
  intro st r hst hgood st' hctl
  rw [sendBody_log] at hgood ⊢
  have hg := hgood _ (List.mem_singleton.mpr rfl)
  obtain ⟨h1, h2⟩ := hst
  cases r with
  | error e =>
    have : st' = st := by
      unfold sendBody at hctl
      by_cases h : hardError e = true <;> simp [h] at hctl
      exact hctl.symm
    subst this
    simp [SendIter.accepted]
  | ok n =>
    have : st' = ⟨st.sendBuffer + n, st.sendBufferLength - n⟩ := by
      unfold sendBody at hctl
      by_cases h : n = 0 <;> simp [h] at hctl <;> simp [← hctl, h]
    subst this
    simp only [SendIter.accepted, List.map_cons, List.map_nil, List.flatten_cons,
      List.flatten_nil, List.append_nil, List.nil_append]
    rw [List.take_add]

theorem sendLoop_sum_length (message : CStr) (log : List SendIter)
    (h : ∀ it ∈ log, (it.accepted message).length = it.written) :
    (sentBytes message log).length = sentCount log := by
  induction log with
  | nil => rfl
  | cons it log ih =>
    have h1 := h it (List.mem_cons_self _ _)
    have h2 := ih (fun it' hit => h it' (List.mem_cons_of_mem _ hit))
    simp only [sentBytes, sentCount, List.map_cons, List.flatten_cons, List.length_append,
      List.sum_cons] at h2 ⊢
    omega

/-- The send loop leaves through its condition exactly on a `send` that returns 0. -/
theorem sendBody_exit_iff (st : SendState) (r : SendResult) :
    (∃ st', (sendBody st r).2 = .exit st') ↔ r = .ok 0 := by
  unfold sendBody
  cases r with
  | error e => by_cases h : hardError e = true <;> simp [h]
  | ok n => by_cases h : n = 0 <;> simp [h]

/-- C1 (as amended): in both programs the send loop is `sendLoop`.  For every request
buffer and every sequence of `send` results in which each successful result is at most
the length requested and is 0 only when the length requested is 0 (would-block results
anywhere), if the loop falls through to `shutdown(SD_SEND)` then the sum of the
successful partial-write lengths is the buffer's length, the bytes handed to the socket,
in order, are exactly the buffer, and no bytes remain.  What makes the loop fall through
is its condition `res != 0`: at every cursor, the body leaves the loop if and only if
`send` returned 0. -/
theorem send_loop_delivers_request (message : CStr) (sends : List SendResult)
    (st : SendState)
    (hhonoured : ∀ it ∈ (sendLoop message sends).log, it.honoured)
    (hprogress : ∀ it ∈ (sendLoop message sends).log, it.progress)
    (hfin : (sendLoop message sends).fin = .fallthrough st) :
    sentCount (sendLoop message sends).log = message.length ∧
    sentBytes message (sendLoop message sends).log = message ∧
    st.sendBufferLength = 0 ∧
    ∀ cur r, (∃ st', (sendBody cur r).2 = .exit st') ↔ r = .ok 0 := by
  have hinit : SendInv message ⟨0, message.length⟩ := ⟨by simp, by simp⟩
  have hgood : ∀ it ∈ (sendLoop message sends).log, it.honoured ∧ it.progress :=
    fun it hit => ⟨hhonoured it hit, hprogress it hit⟩
  obtain ⟨hP, _, hpost, _⟩ :=
    doWhile_maintains sendBody _ _ _ _ (sendBody_maintains message) sends _ hinit hgood
  have hbal := doWhile_balances sendBody _ _ _ _ _ _ _ (sendBody_maintains message)
    (sendBody_balances message) sends _ hinit hgood st (Or.inl hfin)
  obtain ⟨⟨h1, h2⟩, h3⟩ := hpost st hfin
  have hlen : st.sendBufferLength = 0 := by omega
  have hoff : st.sendBuffer = message.length := by omega
  have hbytes : sentBytes message (sendLoop message sends).log = message := by
    have := hbal
    simp only [List.take_zero, List.nil_append, List.map_const', List.flatten_replicate_nil,
      hoff, List.take_length] at this
    exact this
  refine ⟨?_, hbytes, hlen, sendBody_exit_iff⟩
  have hsum := sendLoop_sum_length message (sendLoop message sends).log hP
  rw [← hsum, hbytes]

/-- A concrete run of the send loop: the 64-byte request for `http://localhost/index.html`
is accepted as 10 and then 54 bytes, with two would-block results in between, and the
last `send`, of 0 bytes, returns 0. -/
theorem send_loop_delivers_request_witness :
    sentCount (sendLoop (CS260_Assignment3_Client.message "localhost".toList "/index.html".toList)
      [.error WSAEWOULDBLOCK, .ok 10, .error EAGAIN, .ok 54, .ok 0]).log
      = (CS260_Assignment3_Client.message "localhost".toList "/index.html".toList).length ∧
    sentBytes (CS260_Assignment3_Client.message "localhost".toList "/index.html".toList)
      (sendLoop (CS260_Assignment3_Client.message "localhost".toList "/index.html".toList)
      [.error WSAEWOULDBLOCK, .ok 10, .error EAGAIN, .ok 54, .ok 0]).log
      = CS260_Assignment3_Client.message "localhost".toList "/index.html".toList :=
  have h := send_loop_delivers_request
    (CS260_Assignment3_Client.message "localhost".toList "/index.html".toList)
    [.error WSAEWOULDBLOCK, .ok 10, .error EAGAIN, .ok 54, .ok 0] ⟨64, 0⟩
    (by
      simp [sendLoop, doWhile, sendBody, hardError, WSAEWOULDBLOCK, EAGAIN,
        CS260_Assignment3_Client.message, SendIter.honoured])
    (by
      simp [sendLoop, doWhile, sendBody, hardError, WSAEWOULDBLOCK, EAGAIN,
        CS260_Assignment3_Client.message, SendIter.progress])
    (by
      simp [sendLoop, doWhile, sendBody, hardError, WSAEWOULDBLOCK, EAGAIN,
        CS260_Assignment3_Client.message])
  ⟨h.1, h.2.1⟩

/-- C1 (counterexample): on the request for `http://localhost/index.html` a first `send`
that returns 0 (a result between 0 and the 64 bytes requested) makes the loop fall
through to `shutdown(SD_SEND)` with nothing sent: the sum of the partial writes is 0,
not 64, and all 64 bytes remain. -/
theorem send_loop_zero_result_ends_loop :
    (∀ it ∈ (sendLoop (CS260_Assignment3_Client.message "localhost".toList
        "/index.html".toList) [.ok 0]).log, it.honoured) ∧
    (sendLoop (CS260_Assignment3_Client.message "localhost".toList "/index.html".toList)
      [.ok 0]).fin = .fallthrough ⟨0, 64⟩ ∧
    sentCount (sendLoop (CS260_Assignment3_Client.message "localhost".toList
      "/index.html".toList) [.ok 0]).log = 0 ∧
    (CS260_Assignment3_Client.message "localhost".toList "/index.html".toList).length = 64 ∧
    sentBytes (CS260_Assignment3_Client.message "localhost".toList "/index.html".toList)
      (sendLoop (CS260_Assignment3_Client.message "localhost".toList "/index.html".toList)
      [.ok 0]).log = [] := by
  refine ⟨?_, ?_, ?_, ?_, ?_⟩ <;>
    simp [sendLoop, doWhile, sendBody, CS260_Assignment3_Client.message, SendIter.honoured,
      sentCount, sentBytes, SendIter.written, SendIter.accepted]

/-! ## The receive buffer -/

theorem takeWhile_append_nul (s : List Char) (k : Nat) (hk : 0 < k) (rest : List Char) :
    (s ++ List.replicate k NUL ++ rest).takeWhile (fun c => c != NUL)
      = s.takeWhile (fun c => c != NUL) := by
  induction s with
  | nil =>
    obtain ⟨j, rfl⟩ := Nat.exists_eq_succ_of_ne_zero (Nat.pos_iff_ne_zero.mp hk)
    simp [List.replicate_succ]
  | cons c s ih =>
    by_cases hc : c = NUL
    · simp [hc]
    · simp only [List.append_assoc] at ih
      simp [hc, ih]

theorem takeWhile_nul_free (s : List Char) (h : NUL ∉ s) :
    s.takeWhile (fun c => c != NUL) = s := by
  induction s with
  | nil => rfl
  | cons c s ih =>
    simp only [List.mem_cons, not_or] at h
    have hc : c ≠ NUL := fun e => h.1 e.symm
    simp [hc, ih h.2]

theorem nul_not_mem_takeWhile (s : List Char) :
    NUL ∉ s.takeWhile (fun c => c != NUL) := by
  intro h
  have := List.mem_takeWhile_imp h
  simp at this

theorem length_takeWhile_le (s : List Char) :
    (s.takeWhile (fun c => c != NUL)).length ≤ s.length :=
  (List.takeWhile_sublist _).length_le

theorem store_at (pre data : List Char) (k off : Nat) (hoff : pre.length = off)
    (h : data.length ≤ k) :
    store (pre ++ List.replicate k NUL) off data
      = some (pre ++ data ++ List.replicate (k - data.length) NUL) := by
  subst hoff
  unfold store
  rw [if_pos (by simp; omega)]
  simp [List.take_append_eq_append_take, List.drop_append_eq_append_drop, List.drop_replicate]

theorem cstr_at (pre s : List Char) (k off : Nat) (hoff : pre.length = off) (hk : 0 < k) :
    cstr (pre ++ s ++ List.replicate k NUL) off
      = some (s.takeWhile (fun c => c != NUL)) := by
  subst hoff
  unfold cstr
  have hd : (pre ++ s ++ List.replicate k NUL).drop pre.length = s ++ List.replicate k NUL := by
    simp [List.append_assoc]
  rw [hd, if_pos]
  · have := takeWhile_append_nul s k hk []
    simpa using this
  · simp; right; omega

theorem store_nul_at (pre : List Char) (k off : Nat) (hoff : pre.length = off) (hk : 0 < k) :
    store (pre ++ List.replicate k NUL) off [NUL] = some (pre ++ List.replicate k NUL) := by
  rw [store_at pre [NUL] k off hoff (by simpa using hk)]
  obtain ⟨j, rfl⟩ := Nat.exists_eq_succ_of_ne_zero (Nat.pos_iff_ne_zero.mp hk)
  simp [List.replicate_succ]

theorem memset0_all (buf : Buffer) (h : buf.length = RECV_BUFFER_LEN) :
    memset0 buf 0 RECV_BUFFER_LEN = some zeroBuffer := by
  unfold memset0
  rw [if_pos (by simp [h])]
  simp [zeroBuffer, h]

theorem pendingBytes_length (st : RecvState) (h : RecvInv st) :
    st.pendingBytes.length = st.recvBuffer := by
  obtain ⟨h1, h2, h3⟩ := h
  simp only [RecvState.pendingBytes, List.length_take, RECV_BUFFER_LEN] at *
  omega

theorem memset0_cursor (st : RecvState) (h : RecvInv st) :
    memset0 st.buf st.recvBuffer st.recvBufferLength
      = some (st.pendingBytes ++ List.replicate st.recvBufferLength.toNat NUL) := by
  obtain ⟨h1, h2, h3⟩ := h
  unfold memset0
  simp only [RECV_BUFFER_LEN] at h1 h2
  rw [if_pos ⟨by omega, by omega⟩]
  have : st.buf.drop (st.recvBuffer + st.recvBufferLength.toNat) = [] := by
    apply List.drop_eq_nil_of_le; omega
  simp [this, RecvState.pendingBytes]

/-! ## The receive loop bodies, step by step -/

theorem CS260_Assignment3_Client.cs260_recvBody_error (m : Bool) (st : RecvState) (h : RecvInv st)
    (e : Int) :
    CS260_Assignment3_Client.recvBody m st (.error e) =
      if hardError e then
        ([⟨st.recvBuffer, st.recvBufferLength, .error e, none⟩], .gotoEndSocket)
      else
        ([⟨st.recvBuffer, st.recvBufferLength, .error e, none⟩],
          .next ⟨st.pendingBytes ++ List.replicate st.recvBufferLength.toNat NUL,
            st.recvBuffer, st.recvBufferLength⟩) := by
  unfold CS260_Assignment3_Client.recvBody
  rw [memset0_cursor st h]

theorem CS260_Assignment3_Client.cs260_recvBody_immediate_ok (st : RecvState) (h : RecvInv st)
    (d : List Char) (hd : (d.length : Int) ≤ st.recvBufferLength - 1) :
    CS260_Assignment3_Client.recvBody true st (.ok d) =
      if d.length ≠ 0 then
        ([⟨st.recvBuffer, st.recvBufferLength, .ok d,
            some (st.recvBuffer, d.takeWhile (fun c => c != NUL))⟩],
          .next ⟨st.pendingBytes ++ d ++ List.replicate (st.recvBufferLength.toNat - d.length) NUL,
            st.recvBuffer, st.recvBufferLength⟩)
      else
        ([⟨st.recvBuffer, st.recvBufferLength, .ok d,
            some (st.recvBuffer, d.takeWhile (fun c => c != NUL))⟩],
          .exit ⟨st.pendingBytes ++ d ++ List.replicate (st.recvBufferLength.toNat - d.length) NUL,
            st.recvBuffer, st.recvBufferLength⟩) := by
  unfold CS260_Assignment3_Client.recvBody
  rw [memset0_cursor st h]
  simp only []
  rw [store_at _ d _ _ (pendingBytes_length st h) (by omega)]
  simp only [if_true]
  rw [cstr_at _ d _ _ (pendingBytes_length st h) (by omega)]

theorem CS260_Assignment3_Client.cs260_recvBody_accumulating_ok (st : RecvState) (h : RecvInv st)
    (d : List Char) (hd : (d.length : Int) ≤ st.recvBufferLength - 1) :
    CS260_Assignment3_Client.recvBody false st (.ok d) =
      if st.recvBufferLength - d.length ≤ 1 then
        if d.length ≠ 0 then
          ([⟨st.recvBuffer, st.recvBufferLength, .ok d,
              some (0, (st.pendingBytes ++ d).takeWhile (fun c => c != NUL))⟩],
            .next ⟨zeroBuffer, 0, RECV_BUFFER_LEN⟩)
        else
          ([⟨st.recvBuffer, st.recvBufferLength, .ok d,
              some (0, (st.pendingBytes ++ d).takeWhile (fun c => c != NUL))⟩],
            .exit ⟨zeroBuffer, 0, RECV_BUFFER_LEN⟩)
      else
        if d.length ≠ 0 then
          ([⟨st.recvBuffer, st.recvBufferLength, .ok d, none⟩],
            .next ⟨st.pendingBytes ++ d
                ++ List.replicate (st.recvBufferLength.toNat - d.length) NUL,
              st.recvBuffer + d.length, st.recvBufferLength - d.length⟩)
        else
          ([⟨st.recvBuffer, st.recvBufferLength, .ok d, none⟩],
            .exit ⟨st.pendingBytes ++ d
                ++ List.replicate (st.recvBufferLength.toNat - d.length) NUL,
              st.recvBuffer + d.length, st.recvBufferLength - d.length⟩) := by
  unfold CS260_Assignment3_Client.recvBody
  rw [memset0_cursor st h]
  simp only []
  rw [store_at _ d _ _ (pendingBytes_length st h) (by omega)]
  simp only [Bool.false_eq_true, if_false]
  have hc := cstr_at [] (st.pendingBytes ++ d) (st.recvBufferLength.toNat - d.length) 0 rfl
    (by omega)
  simp only [List.nil_append] at hc
  rw [hc]
  have hlen : (st.pendingBytes ++ d
      ++ List.replicate (st.recvBufferLength.toNat - d.length) NUL).length = RECV_BUFFER_LEN := by
    have := pendingBytes_length st h
    obtain ⟨_, h2, _⟩ := h
    simp only [List.length_append, List.length_replicate, RECV_BUFFER_LEN] at *
    omega
  rw [memset0_all _ hlen]

theorem FakeHttpClient.fake_recvBody_error (st : RecvState) (h : RecvInv st) (e : Int) :
    FakeHttpClient.recvBody st (.error e) =
      if hardError e then
        ([⟨st.recvBuffer, st.recvBufferLength, .error e, none⟩], .gotoEndSocket)
      else
        ([⟨st.recvBuffer, st.recvBufferLength, .error e, none⟩],
          .next ⟨st.pendingBytes ++ List.replicate st.recvBufferLength.toNat NUL,
            st.recvBuffer, st.recvBufferLength⟩) := by
  unfold FakeHttpClient.recvBody
  rw [memset0_cursor st h]

theorem FakeHttpClient.fake_recvBody_ok (st : RecvState) (h : RecvInv st)
    (d : List Char) (hd : (d.length : Int) ≤ st.recvBufferLength - 1) :
    FakeHttpClient.recvBody st (.ok d) =
      if d.length > 0 then
        ([⟨st.recvBuffer, st.recvBufferLength, .ok d,
            some (st.recvBuffer, d.takeWhile (fun c => c != NUL))⟩],
          .next ⟨st.pendingBytes ++ d ++ List.replicate (st.recvBufferLength.toNat - d.length) NUL,
            st.recvBuffer, st.recvBufferLength⟩)
      else
        ([⟨st.recvBuffer, st.recvBufferLength, .ok d, none⟩],
          .exit ⟨st.pendingBytes ++ d ++ List.replicate (st.recvBufferLength.toNat - d.length) NUL,
            st.recvBuffer, st.recvBufferLength⟩) := by
  unfold FakeHttpClient.recvBody
  rw [memset0_cursor st h]
  simp only []
  rw [store_at _ d _ _ (pendingBytes_length st h) (by omega)]
  simp only []
  have hp := pendingBytes_length st h
  rw [store_nul_at (st.pendingBytes ++ d) _ _ (by simp [hp]) (by omega)]
  simp only []
  rw [cstr_at _ d _ _ hp (by omega)]

section
variable {σ ρ ι : Type}

theorem Maintains.and_also {body : σ → ρ → List ι × Ctl σ} {Inv Post : σ → Prop}
    {Good Good' P : ι → Prop} (J : σ → Prop)
    (h : Maintains body Inv Post Good P) (hgood : ∀ it, Good' it → Good it)
    (hJ : ∀ st r, Inv st → J st → (∀ it ∈ (body st r).1, Good' it) →
      ∀ st', (body st r).2 = .next st' ∨ (body st r).2 = .exit st' → J st') :
    Maintains body (fun st => Inv st ∧ J st) (fun st => Post st ∧ J st) Good' P := by
  intro st r hst hg
  obtain ⟨hP, hF, hI, hE⟩ := h st r hst.1 (fun it hit => hgood it (hg it hit))
  refine ⟨hP, hF, ?_, ?_⟩
  · intro st' hc
    exact ⟨hI st' hc, hJ st r hst.1 hst.2 hg st' (Or.inl hc)⟩
  · intro st' hc
    exact ⟨hE st' hc, hJ st r hst.1 hst.2 hg st' (Or.inr hc)⟩

end

theorem recvInv_init : RecvInv RecvState.init := by
  refine ⟨?_, ?_, ?_⟩
  · simp only [RecvState.init, zeroBuffer, List.length_replicate]
  · simp only [RecvState.init]; push_cast; omega
  · simp only [RecvState.init, RECV_BUFFER_LEN]; omega

theorem pendingBytes_init : RecvState.init.pendingBytes = [] := by
  simp only [RecvState.pendingBytes, RecvState.init, List.take_zero]

theorem recvInv_reset : RecvInv ⟨zeroBuffer, 0, RECV_BUFFER_LEN⟩ := recvInv_init

theorem recvInv_stored (st : RecvState) (h : RecvInv st) (d : List Char)
    (hd : (d.length : Int) ≤ st.recvBufferLength - 1) :
    RecvInv ⟨st.pendingBytes ++ d ++ List.replicate (st.recvBufferLength.toNat - d.length) NUL,
      st.recvBuffer, st.recvBufferLength⟩ := by
  have hp := pendingBytes_length st h
  obtain ⟨h1, h2, h3⟩ := h
  refine ⟨?_, h2, h3⟩
  simp only [List.length_append, List.length_replicate, RECV_BUFFER_LEN] at *
  omega

theorem recvInv_zeroed (st : RecvState) (h : RecvInv st) :
    RecvInv ⟨st.pendingBytes ++ List.replicate st.recvBufferLength.toNat NUL,
      st.recvBuffer, st.recvBufferLength⟩ := by
  have := recvInv_stored st h [] (by obtain ⟨_, _, h3⟩ := h; simp; omega)
  simpa using this

theorem recvInv_advanced (st : RecvState) (h : RecvInv st) (d : List Char)
    (hgt : ¬ st.recvBufferLength - d.length ≤ 1) :
    RecvInv ⟨st.pendingBytes ++ d ++ List.replicate (st.recvBufferLength.toNat - d.length) NUL,
      st.recvBuffer + d.length, st.recvBufferLength - d.length⟩ := by
  have hp := pendingBytes_length st h
  obtain ⟨h1, h2, h3⟩ := h
  refine ⟨?_, ?_, ?_⟩
  · simp only [List.length_append, List.length_replicate, RECV_BUFFER_LEN] at *
    omega
  · simp only []; push_cast; omega
  · simp only []; omega

theorem pendingBytes_stored (st : RecvState) (h : RecvInv st) (tail : List Char) :
    (RecvState.mk (st.pendingBytes ++ tail) st.recvBuffer st.recvBufferLength).pendingBytes
      = st.pendingBytes := by
  have hp := pendingBytes_length st h
  show List.take st.recvBuffer (st.pendingBytes ++ tail) = st.pendingBytes
  generalize st.pendingBytes = p at hp ⊢
  rw [← hp]
  simp

theorem pendingBytes_advanced (st : RecvState) (h : RecvInv st) (d tail : List Char) (len : Int) :
    (RecvState.mk (st.pendingBytes ++ d ++ tail) (st.recvBuffer + d.length) len).pendingBytes
      = st.pendingBytes ++ d := by
  have hp := pendingBytes_length st h
  show List.take (st.recvBuffer + d.length) (st.pendingBytes ++ d ++ tail) = st.pendingBytes ++ d
  generalize st.pendingBytes = p at hp ⊢
  have hl : st.recvBuffer + d.length = (p ++ d).length := by simp [hp]
  rw [hl, List.take_left]

theorem safe_call (st : RecvState) (h : RecvInv st) (e : Int) :
    RecvIter.safe ⟨st.recvBuffer, st.recvBufferLength, .error e, none⟩ := by
  obtain ⟨_, h2, h3⟩ := h
  exact ⟨h2, h3, by simp, by simp⟩

theorem safe_ok (st : RecvState) (h : RecvInv st) (d : List Char)
    (hd : (d.length : Int) ≤ st.recvBufferLength - 1) (p : Option (Nat × List Char))
    (hp : ∀ start s, p = some (start, s) →
      NUL ∉ s ∧ start + s.length ≤ st.recvBuffer + d.length) :
    RecvIter.safe ⟨st.recvBuffer, st.recvBufferLength, .ok d, p⟩ := by
  obtain ⟨_, h2, h3⟩ := h
  refine ⟨h2, h3, ?_, ?_⟩
  · intro d' hd'
    simp only [RecvResult.ok.injEq] at hd'
    subst hd'
    simp only [RECV_BUFFER_LEN] at *
    omega
  · intro start s hs
    exact ⟨(hp start s hs).1, d, rfl, (hp start s hs).2⟩

namespace CS260_Assignment3_Client

theorem cs260_recvBody_log (m : Bool) (st : RecvState) (h : RecvInv st) (r : RecvResult) :
    ∃ p, (recvBody m st r).1 = [⟨st.recvBuffer, st.recvBufferLength, r, p⟩] := by
  unfold recvBody
  rw [memset0_cursor st h]
  simp only []
  repeat' split
  all_goals exact ⟨_, rfl⟩

theorem cs260_recvBody_bound (m : Bool) (st : RecvState) (h : RecvInv st) (d : List Char)
    (hgood : ∀ it ∈ (recvBody m st (.ok d)).1, it.honoured) :
    (d.length : Int) ≤ st.recvBufferLength - 1 := by
  obtain ⟨p, hp⟩ := cs260_recvBody_log m st h (.ok d)
  rw [hp] at hgood
  exact hgood _ (List.mem_singleton.mpr rfl) d rfl

end CS260_Assignment3_Client

namespace FakeHttpClient

theorem fake_recvBody_log (st : RecvState) (h : RecvInv st) (r : RecvResult) :
    ∃ p, (recvBody st r).1 = [⟨st.recvBuffer, st.recvBufferLength, r, p⟩] := by
  unfold recvBody
  rw [memset0_cursor st h]
  simp only []
  repeat' split
  all_goals exact ⟨_, rfl⟩

theorem fake_recvBody_bound (st : RecvState) (h : RecvInv st) (d : List Char)
    (hgood : ∀ it ∈ (recvBody st (.ok d)).1, it.honoured) :
    (d.length : Int) ≤ st.recvBufferLength - 1 := by
  obtain ⟨p, hp⟩ := fake_recvBody_log st h (.ok d)
  rw [hp] at hgood
  exact hgood _ (List.mem_singleton.mpr rfl) d rfl

end FakeHttpClient

namespace CS260_Assignment3_Client

theorem cs260_recvBody_maintains (m : Bool) :
    Maintains (recvBody m) RecvInv RecvInv RecvIter.honoured RecvIter.safe := by
  intro st r hst hgood
  cases r with
  | error e =>
    rw [cs260_recvBody_error m st hst e]
    by_cases he : hardError e = true
    · rw [if_pos he]
      exact ⟨by simpa using safe_call st hst e, by simp, by simp, by simp⟩
    · rw [if_neg he]
      refine ⟨by simpa using safe_call st hst e, by simp, ?_, by simp⟩
      intro st' hs
      simp only [Ctl.next.injEq] at hs
      exact hs ▸ recvInv_zeroed st hst
  | ok d =>
    have hd := cs260_recvBody_bound m st hst d hgood
    have hp := pendingBytes_length st hst
    cases m with
    | true =>
      rw [cs260_recvBody_immediate_ok st hst d hd]
      have hsafe : RecvIter.safe ⟨st.recvBuffer, st.recvBufferLength, .ok d,
          some (st.recvBuffer, d.takeWhile (fun c => c != NUL))⟩ := by
        apply safe_ok st hst d hd
        intro start s hs
        simp only [Option.some.injEq, Prod.mk.injEq] at hs
        obtain ⟨rfl, rfl⟩ := hs
        exact ⟨nul_not_mem_takeWhile d, by have := length_takeWhile_le d; omega⟩
      by_cases hn : d.length ≠ 0
      · rw [if_pos hn]
        refine ⟨by simpa using hsafe, by simp, ?_, by simp⟩
        intro st' hs
        simp only [Ctl.next.injEq] at hs
        exact hs ▸ recvInv_stored st hst d hd
      · rw [if_neg hn]
        refine ⟨by simpa using hsafe, by simp, by simp, ?_⟩
        intro st' hs
        simp only [Ctl.exit.injEq] at hs
        exact hs ▸ recvInv_stored st hst d hd
    | false =>
      rw [cs260_recvBody_accumulating_ok st hst d hd]
      have hsafe1 : RecvIter.safe ⟨st.recvBuffer, st.recvBufferLength, .ok d,
          some (0, (st.pendingBytes ++ d).takeWhile (fun c => c != NUL))⟩ := by
        apply safe_ok st hst d hd
        intro start s hs
        simp only [Option.some.injEq, Prod.mk.injEq] at hs
        obtain ⟨rfl, rfl⟩ := hs
        refine ⟨nul_not_mem_takeWhile _, ?_⟩
        have := length_takeWhile_le (st.pendingBytes ++ d)
        simp only [List.length_append] at this
        omega
      have hsafe2 : RecvIter.safe ⟨st.recvBuffer, st.recvBufferLength, .ok d, none⟩ :=
        safe_ok st hst d hd none (by simp)
      by_cases hfull : st.recvBufferLength - d.length ≤ 1
      · rw [if_pos hfull]
        by_cases hn : d.length ≠ 0
        · rw [if_pos hn]
          refine ⟨by simpa using hsafe1, by simp, ?_, by simp⟩
          intro st' hs
          simp only [Ctl.next.injEq] at hs
          exact hs ▸ recvInv_reset
        · rw [if_neg hn]
          refine ⟨by simpa using hsafe1, by simp, by simp, ?_⟩
          intro st' hs
          simp only [Ctl.exit.injEq] at hs
          exact hs ▸ recvInv_reset
      · rw [if_neg hfull]
        by_cases hn : d.length ≠ 0
        · rw [if_pos hn]
          refine ⟨by simpa using hsafe2, by simp, ?_, by simp⟩
          intro st' hs
          simp only [Ctl.next.injEq] at hs
          exact hs ▸ recvInv_advanced st hst d hfull
        · rw [if_neg hn]
          refine ⟨by simpa using hsafe2, by simp, by simp, ?_⟩
          intro st' hs
          simp only [Ctl.exit.injEq] at hs
          exact hs ▸ recvInv_advanced st hst d hfull

end CS260_Assignment3_Client

namespace FakeHttpClient

theorem fake_recvBody_maintains :
    Maintains recvBody RecvInv RecvInv RecvIter.honoured RecvIter.safe := by
  intro st r hst hgood
  cases r with
  | error e =>
    rw [fake_recvBody_error st hst e]
    by_cases he : hardError e = true
    · rw [if_pos he]
      exact ⟨by simpa using safe_call st hst e, by simp, by simp, by simp⟩
    · rw [if_neg he]
      refine ⟨by simpa using safe_call st hst e, by simp, ?_, by simp⟩
      intro st' hs
      simp only [Ctl.next.injEq] at hs
      exact hs ▸ recvInv_zeroed st hst
  | ok d =>
    have hd := fake_recvBody_bound st hst d hgood
    rw [fake_recvBody_ok st hst d hd]
    have hsafe : RecvIter.safe ⟨st.recvBuffer, st.recvBufferLength, .ok d,
        some (st.recvBuffer, d.takeWhile (fun c => c != NUL))⟩ := by
      apply safe_ok st hst d hd
      intro start s hs
      simp only [Option.some.injEq, Prod.mk.injEq] at hs
      obtain ⟨rfl, rfl⟩ := hs
      exact ⟨nul_not_mem_takeWhile d, by have := length_takeWhile_le d; omega⟩
    have hsafe2 : RecvIter.safe ⟨st.recvBuffer, st.recvBufferLength, .ok d, none⟩ :=
      safe_ok st hst d hd none (by simp)
    by_cases hn : d.length > 0
    · rw [if_pos hn]
      refine ⟨by simpa using hsafe, by simp, ?_, by simp⟩
      intro st' hs
      simp only [Ctl.next.injEq] at hs
      exact hs ▸ recvInv_stored st hst d hd
    · rw [if_neg hn]
      refine ⟨by simpa using hsafe2, by simp, by simp, ?_⟩
      intro st' hs
      simp only [Ctl.exit.injEq] at hs
      exact hs ▸ recvInv_stored st hst d hd

end FakeHttpClient

theorem pendingBytes_eq_nil (st : RecvState) (h : st.recvBuffer = 0) : st.pendingBytes = [] := by
  simp [RecvState.pendingBytes, h]

theorem pendingBytes_reset : (RecvState.mk zeroBuffer 0 RECV_BUFFER_LEN).pendingBytes = [] := by
  simp only [RecvState.pendingBytes, List.take_zero]

theorem ctl_of_next {σ : Type} {s st' : σ}
    (h : Ctl.next s = .next st' ∨ Ctl.next s = .exit st') : st' = s := by
  rcases h with h | h
  · exact (Ctl.next.inj h).symm
  · cases h

theorem ctl_of_exit {σ : Type} {s st' : σ}
    (h : Ctl.exit s = .next st' ∨ Ctl.exit s = .exit st') : st' = s := by
  rcases h with h | h
  · cases h
  · exact (Ctl.exit.inj h).symm

theorem ctl_of_goto {σ : Type} {st' : σ}
    (h : (Ctl.gotoEndSocket : Ctl σ) = .next st' ∨ (Ctl.gotoEndSocket : Ctl σ) = .exit st') :
    False := by
  rcases h with h | h <;> cases h

theorem text_printed (off : Nat) (len : Int) (r : RecvResult) (start : Nat) (s : List Char) :
    RecvIter.text ⟨off, len, r, some (start, s)⟩ = s := rfl

theorem text_silent (off : Nat) (len : Int) (r : RecvResult) :
    RecvIter.text ⟨off, len, r, none⟩ = [] := rfl

theorem data_ok (off : Nat) (len : Int) (d : List Char) (p : Option (Nat × List Char)) :
    RecvIter.data ⟨off, len, .ok d, p⟩ = d := rfl

theorem data_error (off : Nat) (len : Int) (e : Int) (p : Option (Nat × List Char)) :
    RecvIter.data ⟨off, len, .error e, p⟩ = [] := rfl

theorem flatten_one (s : List Char) : ([s] : List (List Char)).flatten = s := by simp

namespace CS260_Assignment3_Client

theorem cs260_recvBody_clean (m : Bool) (st : RecvState) (h : RecvInv st) (d : List Char)
    (hgood : ∀ it ∈ (recvBody m st (.ok d)).1, it.honoured ∧ NUL ∉ it.data) :
    (d.length : Int) ≤ st.recvBufferLength - 1 ∧ NUL ∉ d := by
  obtain ⟨p, hp⟩ := cs260_recvBody_log m st h (.ok d)
  rw [hp] at hgood
  have := hgood _ (List.mem_singleton.mpr rfl)
  exact ⟨this.1 d rfl, this.2⟩

theorem cs260_recvBody_immediate_balances :
    Balances (recvBody true) (fun st => RecvInv st ∧ st.recvBuffer = 0)
      (fun it => it.honoured ∧ NUL ∉ it.data) RecvIter.data RecvIter.text
      RecvState.pendingBytes := by
  intro st r hinv hgood st' hctl
  obtain ⟨hst, h0⟩ := hinv
  have hpend := pendingBytes_eq_nil st h0
  cases r with
  | error e =>
    rw [cs260_recvBody_error true st hst e] at hctl ⊢
    by_cases he : hardError e = true
    · rw [if_pos he] at hctl
      exact (ctl_of_goto hctl).elim
    · rw [if_neg he] at hctl ⊢
      rw [ctl_of_next hctl, pendingBytes_stored st hst]
      simp only [List.map_cons, List.map_nil, flatten_one, data_error, text_silent,
        List.append_nil, List.nil_append]
  | ok d =>
    obtain ⟨hd, hnul⟩ := cs260_recvBody_clean true st hst d hgood
    rw [cs260_recvBody_immediate_ok st hst d hd] at hctl ⊢
    have hs := pendingBytes_stored st hst
      (d ++ List.replicate (st.recvBufferLength.toNat - d.length) NUL)
    simp only [← List.append_assoc] at hs
    by_cases hn : d.length ≠ 0
    · rw [if_pos hn] at hctl ⊢
      rw [ctl_of_next hctl, hs]
      simp only [List.map_cons, List.map_nil, flatten_one, data_ok, text_printed,
        takeWhile_nul_free d hnul, hpend, List.append_nil, List.nil_append]
    · rw [if_neg hn] at hctl ⊢
      rw [ctl_of_exit hctl, hs]
      simp only [List.map_cons, List.map_nil, flatten_one, data_ok, text_printed,
        takeWhile_nul_free d hnul, hpend, List.append_nil, List.nil_append]

theorem cs260_recvBody_immediate_offset (st : RecvState) (r : RecvResult) (hst : RecvInv st)
    (h0 : st.recvBuffer = 0)
    (hgood : ∀ it ∈ (recvBody true st r).1, it.honoured)
    (st' : RecvState)
    (hctl : (recvBody true st r).2 = .next st' ∨ (recvBody true st r).2 = .exit st') :
    st'.recvBuffer = 0 := by
  cases r with
  | error e =>
    rw [cs260_recvBody_error true st hst e] at hctl
    by_cases he : hardError e = true
    · rw [if_pos he] at hctl
      exact (ctl_of_goto hctl).elim
    · rw [if_neg he] at hctl
      rw [ctl_of_next hctl]
      exact h0
  | ok d =>
    have hd := cs260_recvBody_bound true st hst d hgood
    rw [cs260_recvBody_immediate_ok st hst d hd] at hctl
    by_cases hn : d.length ≠ 0
    · rw [if_pos hn] at hctl
      rw [ctl_of_next hctl]
      exact h0
    · rw [if_neg hn] at hctl
      rw [ctl_of_exit hctl]
      exact h0

theorem cs260_recvBody_accumulating_balances :
    Balances (recvBody false) (fun st => RecvInv st ∧ NUL ∉ st.pendingBytes)
      (fun it => it.honoured ∧ NUL ∉ it.data) RecvIter.data RecvIter.text
      RecvState.pendingBytes := by
  intro st r hinv hgood st' hctl
  obtain ⟨hst, hfree⟩ := hinv
  cases r with
  | error e =>
    rw [cs260_recvBody_error false st hst e] at hctl ⊢
    by_cases he : hardError e = true
    · rw [if_pos he] at hctl
      exact (ctl_of_goto hctl).elim
    · rw [if_neg he] at hctl ⊢
      rw [ctl_of_next hctl, pendingBytes_stored st hst]
      simp only [List.map_cons, List.map_nil, flatten_one, data_error, text_silent,
        List.append_nil, List.nil_append]
  | ok d =>
    obtain ⟨hd, hnul⟩ := cs260_recvBody_clean false st hst d hgood
    rw [cs260_recvBody_accumulating_ok st hst d hd] at hctl ⊢
    have hall : NUL ∉ st.pendingBytes ++ d := by
      simp only [List.mem_append, not_or]
      exact ⟨hfree, hnul⟩
    have hadv := pendingBytes_advanced st hst d
      (List.replicate (st.recvBufferLength.toNat - d.length) NUL)
      (st.recvBufferLength - d.length)
    by_cases hfull : st.recvBufferLength - d.length ≤ 1
    · rw [if_pos hfull] at hctl ⊢
      by_cases hn : d.length ≠ 0
      · rw [if_pos hn] at hctl ⊢
        rw [ctl_of_next hctl, pendingBytes_reset]
        simp only [List.map_cons, List.map_nil, flatten_one, data_ok, text_printed,
          takeWhile_nul_free _ hall, List.append_nil]
      · rw [if_neg hn] at hctl ⊢
        rw [ctl_of_exit hctl, pendingBytes_reset]
        simp only [List.map_cons, List.map_nil, flatten_one, data_ok, text_printed,
          takeWhile_nul_free _ hall, List.append_nil]
    · rw [if_neg hfull] at hctl ⊢
      by_cases hn : d.length ≠ 0
      · rw [if_pos hn] at hctl ⊢
        rw [ctl_of_next hctl, hadv]
        simp only [List.map_cons, List.map_nil, flatten_one, data_ok, text_silent,
          List.nil_append]
      · rw [if_neg hn] at hctl ⊢
        rw [ctl_of_exit hctl, hadv]
        simp only [List.map_cons, List.map_nil, flatten_one, data_ok, text_silent,
          List.nil_append]

theorem cs260_recvBody_accumulating_clean (st : RecvState) (r : RecvResult) (hst : RecvInv st)
    (hfree : NUL ∉ st.pendingBytes)
    (hgood : ∀ it ∈ (recvBody false st r).1, it.honoured ∧ NUL ∉ it.data)
    (st' : RecvState)
    (hctl : (recvBody false st r).2 = .next st' ∨ (recvBody false st r).2 = .exit st') :
    NUL ∉ st'.pendingBytes := by
  cases r with
  | error e =>
    rw [cs260_recvBody_error false st hst e] at hctl
    by_cases he : hardError e = true
    · rw [if_pos he] at hctl
      exact (ctl_of_goto hctl).elim
    · rw [if_neg he] at hctl
      rw [ctl_of_next hctl, pendingBytes_stored st hst]
      exact hfree
  | ok d =>
    obtain ⟨hd, hnul⟩ := cs260_recvBody_clean false st hst d hgood
    rw [cs260_recvBody_accumulating_ok st hst d hd] at hctl
    have hall : NUL ∉ st.pendingBytes ++ d := by
      simp only [List.mem_append, not_or]
      exact ⟨hfree, hnul⟩
    have hadv := pendingBytes_advanced st hst d
      (List.replicate (st.recvBufferLength.toNat - d.length) NUL)
      (st.recvBufferLength - d.length)
    by_cases hfull : st.recvBufferLength - d.length ≤ 1
    · rw [if_pos hfull] at hctl
      by_cases hn : d.length ≠ 0
      · rw [if_pos hn] at hctl
        rw [ctl_of_next hctl, pendingBytes_reset]
        simp
      · rw [if_neg hn] at hctl
        rw [ctl_of_exit hctl, pendingBytes_reset]
        simp
    · rw [if_neg hfull] at hctl
      by_cases hn : d.length ≠ 0
      · rw [if_pos hn] at hctl
        rw [ctl_of_next hctl, hadv]
        exact hall
      · rw [if_neg hn] at hctl
        rw [ctl_of_exit hctl, hadv]
        exact hall

end CS260_Assignment3_Client

namespace FakeHttpClient

theorem fake_recvBody_clean (st : RecvState) (h : RecvInv st) (d : List Char)
    (hgood : ∀ it ∈ (recvBody st (.ok d)).1, it.honoured ∧ NUL ∉ it.data) :
    (d.length : Int) ≤ st.recvBufferLength - 1 ∧ NUL ∉ d := by
  obtain ⟨p, hp⟩ := fake_recvBody_log st h (.ok d)
  rw [hp] at hgood
  have := hgood _ (List.mem_singleton.mpr rfl)
  exact ⟨this.1 d rfl, this.2⟩

theorem fake_recvBody_balances :
    Balances recvBody (fun st => RecvInv st ∧ st.recvBuffer = 0)
      (fun it => it.honoured ∧ NUL ∉ it.data) RecvIter.data RecvIter.text
      RecvState.pendingBytes := by
  intro st r hinv hgood st' hctl
  obtain ⟨hst, h0⟩ := hinv
  have hpend := pendingBytes_eq_nil st h0
  cases r with
  | error e =>
    rw [fake_recvBody_error st hst e] at hctl ⊢
    by_cases he : hardError e = true
    · rw [if_pos he] at hctl
      exact (ctl_of_goto hctl).elim
    · rw [if_neg he] at hctl ⊢
      rw [ctl_of_next hctl, pendingBytes_stored st hst]
      simp only [List.map_cons, List.map_nil, flatten_one, data_error, text_silent,
        List.append_nil, List.nil_append]
  | ok d =>
    obtain ⟨hd, hnul⟩ := fake_recvBody_clean st hst d hgood
    rw [fake_recvBody_ok st hst d hd] at hctl ⊢
    have hs := pendingBytes_stored st hst
      (d ++ List.replicate (st.recvBufferLength.toNat - d.length) NUL)
    simp only [← List.append_assoc] at hs
    by_cases hn : d.length > 0
    · rw [if_pos hn] at hctl ⊢
      rw [ctl_of_next hctl, hs]
      simp only [List.map_cons, List.map_nil, flatten_one, data_ok, text_printed,
        takeWhile_nul_free d hnul, hpend, List.append_nil, List.nil_append]
    · rw [if_neg hn] at hctl ⊢
      rw [ctl_of_exit hctl, hs]
      have hd0 : d = [] := List.length_eq_zero.mp (by omega)
      simp only [List.map_cons, List.map_nil, flatten_one, data_ok, text_silent,
        hd0, hpend, List.append_nil]

theorem fake_recvBody_offset (st : RecvState) (r : RecvResult) (hst : RecvInv st)
    (h0 : st.recvBuffer = 0)
    (hgood : ∀ it ∈ (recvBody st r).1, it.honoured)
    (st' : RecvState)
    (hctl : (recvBody st r).2 = .next st' ∨ (recvBody st r).2 = .exit st') :
    st'.recvBuffer = 0 := by
  cases r with
  | error e =>
    rw [fake_recvBody_error st hst e] at hctl
    by_cases he : hardError e = true
    · rw [if_pos he] at hctl
      exact (ctl_of_goto hctl).elim
    · rw [if_neg he] at hctl
      rw [ctl_of_next hctl]
      exact h0
  | ok d =>
    have hd := fake_recvBody_bound st hst d hgood
    rw [fake_recvBody_ok st hst d hd] at hctl
    by_cases hn : d.length > 0
    · rw [if_pos hn] at hctl
      rw [ctl_of_next hctl]
      exact h0
    · rw [if_neg hn] at hctl
      rw [ctl_of_exit hctl]
      exact h0

end FakeHttpClient

section
variable {σ ρ ι : Type}

theorem balances_weaken {body : σ → ρ → List ι × Ctl σ} {Inv Inv' : σ → Prop}
    {Good Good' : ι → Prop} {inp outp : ι → List Char} {pend : σ → List Char}
    (h : Balances body Inv Good inp outp pend)
    (hinv : ∀ st, Inv' st → Inv st) (hgood : ∀ it, Good' it → Good it) :
    Balances body Inv' Good' inp outp pend :=
  fun st r hst hg st' hc => h st r (hinv st hst) (fun it hit => hgood it (hg it hit)) st' hc

/-- On a script made of results that continue the loop followed by one that exits it,
the loop logs exactly these results and falls through. -/
theorem doWhile_script (body : σ → ρ → List ι × Ctl σ) (Inv Post : σ → Prop)
    (Good P : ι → Prop) (resOf : ι → ρ) (hkeeps : Maintains body Inv Post Good P)
    (hlogs : Logs body Inv resOf) (last : ρ) (rest : List ρ) (hlast : Exits body Inv last) :
    ∀ (pre : List ρ) (st : σ), (∀ r ∈ pre, Continues body Inv Good r) → Inv st →
      (∀ it ∈ (doWhile body st (pre ++ last :: rest)).log, Good it) →
      (doWhile body st (pre ++ last :: rest)).log.map resOf = pre ++ [last] ∧
      ∃ st', (doWhile body st (pre ++ last :: rest)).fin = .fallthrough st' := by
  intro pre
  induction pre with
  | nil =>
    intro st _ hst _
    obtain ⟨st', hs⟩ := hlast st hst
    obtain ⟨it, hit, hres⟩ := hlogs st last hst
    have hb : body st last = ([it], .exit st') := Prod.ext hit hs
    simp only [List.nil_append]
    rw [doWhile_cons_exit body st st' last rest [it] hb]
    exact ⟨by simp [hres], st', rfl⟩
  | cons r pre ih =>
    intro st hpre hst hgood
    obtain ⟨it, hit, hres⟩ := hlogs st r hst
    simp only [List.cons_append] at hgood ⊢
    have hcont := hpre r (List.mem_cons_self _ _) st hst
    rcases hb : body st r with ⟨its, ctl⟩
    rw [hb] at hit hcont
    simp only at hit
    subst hit
    cases ctl with
    | next st1 =>
      rw [doWhile_cons_next body st st1 r _ [it] hb] at hgood ⊢
      have h1 := (hkeeps st r hst (by
        rw [hb]; intro it' hit'; exact hgood it' (List.mem_append_left _ hit'))).2.2.1 st1
        (by rw [hb])
      obtain ⟨hl, hf⟩ := ih st1 (fun r' hr' => hpre r' (List.mem_cons_of_mem _ hr')) h1
        (fun it' hit' => hgood it' (List.mem_append_right _ hit'))
      exact ⟨by simp [hres, hl], hf⟩
    | exit st1 =>
      rw [doWhile_cons_exit body st st1 r _ [it] hb] at hgood
      obtain ⟨st', hs⟩ := hcont hgood
      cases hs
    | gotoEndSocket =>
      rw [doWhile_cons_goto body st r _ [it] hb] at hgood
      obtain ⟨st', hs⟩ := hcont hgood
      cases hs
    | fault =>
      rw [doWhile_cons_fault body st r _ [it] hb] at hgood
      obtain ⟨st', hs⟩ := hcont hgood
      cases hs

end

theorem zero_le_cursor (st : RecvState) (h : RecvInv st) :
    ((([] : List Char).length : Nat) : Int) ≤ st.recvBufferLength - 1 := by
  obtain ⟨_, _, h3⟩ := h
  simp only [List.length_nil]
  push_cast
  omega

namespace CS260_Assignment3_Client

theorem cs260_recvBody_logs (m : Bool) : Logs (recvBody m) RecvInv RecvIter.res := by
  intro st r hst
  obtain ⟨p, hp⟩ := cs260_recvBody_log m st hst r
  exact ⟨_, hp, rfl⟩

theorem cs260_recvBody_exits (m : Bool) : Exits (recvBody m) RecvInv (.ok []) := by
  intro st hst
  have h0 := zero_le_cursor st hst
  have h3 : ¬ st.recvBufferLength - (([] : List Char).length : Nat) ≤ 1 := by
    obtain ⟨_, _, h3⟩ := hst
    simp only [List.length_nil]; push_cast; omega
  cases m with
  | true =>
    rw [cs260_recvBody_immediate_ok st hst [] h0, if_neg (by simp)]
    exact ⟨_, rfl⟩
  | false =>
    rw [cs260_recvBody_accumulating_ok st hst [] h0, if_neg h3, if_neg (by simp)]
    exact ⟨_, rfl⟩

theorem cs260_recvBody_continues (m : Bool) (r : RecvResult) (hr : r.transient ∨ r.positive) :
    Continues (recvBody m) RecvInv RecvIter.honoured r := by
  intro st hst hgood
  rcases hr with ⟨e, rfl, he⟩ | ⟨d, rfl, hpos⟩
  · rw [cs260_recvBody_error m st hst e, if_neg (by simp [he])]
    exact ⟨_, rfl⟩
  · have hd := cs260_recvBody_bound m st hst d hgood
    have hn : d.length ≠ 0 := by omega
    cases m with
    | true =>
      rw [cs260_recvBody_immediate_ok st hst d hd, if_pos hn]
      exact ⟨_, rfl⟩
    | false =>
      rw [cs260_recvBody_accumulating_ok st hst d hd]
      by_cases hfull : st.recvBufferLength - d.length ≤ 1
      · rw [if_pos hfull, if_pos hn]
        exact ⟨_, rfl⟩
      · rw [if_neg hfull, if_pos hn]
        exact ⟨_, rfl⟩

theorem cs260_recvBody_finishes (m : Bool) (r : RecvResult) (hr : r.terminal) :
    Finishes (recvBody m) RecvInv r := by
  intro st hst st'
  rcases hr with rfl | ⟨e, rfl, he⟩
  · obtain ⟨s, hs⟩ := cs260_recvBody_exits m st hst
    rw [hs]
    simp
  · rw [cs260_recvBody_error m st hst e, if_pos he]
    simp

/-- The loop condition fails only on a result of zero bytes. -/
theorem cs260_recvBody_exit_only_zero (m : Bool) (st st' : RecvState) (r : RecvResult)
    (h : (recvBody m st r).2 = .exit st') : r = .ok [] := by
  unfold recvBody at h
  cases r with
  | error e =>
    split at h
    · cases h
    · simp only [] at h
      split at h <;> cases h
  | ok d =>
    by_cases hd : d.length = 0
    · rw [List.length_eq_zero.mp hd]
    · exfalso
      have hn : d.length ≠ 0 := hd
      split at h
      · cases h
      · simp only [] at h
        split at h
        · cases h
        · simp only [if_pos hn] at h
          repeat' split at h
          all_goals cases h

theorem cs260_recvBody_zeroTail (st : RecvState) (r : RecvResult) (hst : RecvInv st)
    (hgood : ∀ it ∈ (recvBody false st r).1, it.honoured)
    (st' : RecvState)
    (hctl : (recvBody false st r).2 = .next st' ∨ (recvBody false st r).2 = .exit st') :
    ZeroTail st' := by
  cases r with
  | error e =>
    rw [cs260_recvBody_error false st hst e] at hctl
    by_cases he : hardError e = true
    · rw [if_pos he] at hctl
      exact (ctl_of_goto hctl).elim
    · rw [if_neg he] at hctl
      rw [ctl_of_next hctl]
      simp only [ZeroTail]
      rw [pendingBytes_stored st hst]
  | ok d =>
    have hd := cs260_recvBody_bound false st hst d hgood
    rw [cs260_recvBody_accumulating_ok st hst d hd] at hctl
    have hadv := pendingBytes_advanced st hst d
      (List.replicate (st.recvBufferLength.toNat - d.length) NUL)
      (st.recvBufferLength - d.length)
    have hreset : ZeroTail ⟨zeroBuffer, 0, RECV_BUFFER_LEN⟩ := by
      unfold ZeroTail
      rw [pendingBytes_reset]
      simp only [List.nil_append, zeroBuffer, Int.toNat_ofNat]
    have hk : (st.recvBufferLength - d.length).toNat = st.recvBufferLength.toNat - d.length := by
      omega
    have hadvanced : ZeroTail ⟨st.pendingBytes ++ d
        ++ List.replicate (st.recvBufferLength.toNat - d.length) NUL,
        st.recvBuffer + d.length, st.recvBufferLength - d.length⟩ := by
      simp only [ZeroTail]
      rw [hadv, hk]
    by_cases hfull : st.recvBufferLength - d.length ≤ 1
    · rw [if_pos hfull] at hctl
      by_cases hn : d.length ≠ 0
      · rw [if_pos hn] at hctl
        rw [ctl_of_next hctl]
        exact hreset
      · rw [if_neg hn] at hctl
        rw [ctl_of_exit hctl]
        exact hreset
    · rw [if_neg hfull] at hctl
      by_cases hn : d.length ≠ 0
      · rw [if_pos hn] at hctl
        rw [ctl_of_next hctl]
        exact hadvanced
      · rw [if_neg hn] at hctl
        rw [ctl_of_exit hctl]
        exact hadvanced

/-- The terminal flush of a cursor with a zero tail writes the pending bytes, up to
their first zero byte, and a newline. -/
theorem cs260_terminalFlush_accumulating (st : RecvState) (hst : RecvInv st) (hz : ZeroTail st) :
    terminalFlush false st
      = some [st.pendingBytes.takeWhile (fun c => c != NUL), [Char.ofNat 10]] := by
  unfold terminalFlush
  have hc := cstr_at [] st.pendingBytes st.recvBufferLength.toNat 0 rfl (by
    obtain ⟨_, _, h3⟩ := hst; omega)
  simp only [List.nil_append] at hc
  unfold ZeroTail at hz
  rw [← hz] at hc
  simp only [Bool.not_false, if_true, hc]

end CS260_Assignment3_Client

namespace FakeHttpClient

theorem fake_recvBody_logs : Logs recvBody RecvInv RecvIter.res := by
  intro st r hst
  obtain ⟨p, hp⟩ := fake_recvBody_log st hst r
  exact ⟨_, hp, rfl⟩

theorem fake_recvBody_exits : Exits recvBody RecvInv (.ok []) := by
  intro st hst
  rw [fake_recvBody_ok st hst [] (zero_le_cursor st hst), if_neg (by simp)]
  exact ⟨_, rfl⟩

theorem fake_recvBody_continues (r : RecvResult) (hr : r.transient ∨ r.positive) :
    Continues recvBody RecvInv RecvIter.honoured r := by
  intro st hst hgood
  rcases hr with ⟨e, rfl, he⟩ | ⟨d, rfl, hpos⟩
  · rw [fake_recvBody_error st hst e, if_neg (by simp [he])]
    exact ⟨_, rfl⟩
  · have hd := fake_recvBody_bound st hst d hgood
    rw [fake_recvBody_ok st hst d hd, if_pos hpos]
    exact ⟨_, rfl⟩

theorem fake_recvBody_finishes (r : RecvResult) (hr : r.terminal) :
    Finishes recvBody RecvInv r := by
  intro st hst st'
  rcases hr with rfl | ⟨e, rfl, he⟩
  · obtain ⟨s, hs⟩ := fake_recvBody_exits st hst
    rw [hs]
    simp
  · rw [fake_recvBody_error st hst e, if_pos he]
    simp

/-- The loop condition fails only on a result of zero bytes. -/
theorem fake_recvBody_exit_only_zero (st st' : RecvState) (r : RecvResult)
    (h : (recvBody st r).2 = .exit st') : r = .ok [] := by
  unfold recvBody at h
  cases r with
  | error e =>
    split at h
    · cases h
    · simp only [] at h
      split at h <;> cases h
  | ok d =>
    by_cases hd : d.length = 0
    · rw [List.length_eq_zero.mp hd]
    · exfalso
      have hn : d.length > 0 := by omega
      split at h
      · cases h
      · simp only [] at h
        split at h
        · cases h
        · simp only [if_pos hn] at h
          repeat' split at h
          all_goals cases h

end FakeHttpClient

theorem Variant.recvLoop_eq (v : Variant) (recvs : List RecvResult) :
    v.recvLoop recvs = doWhile v.recvBody RecvState.init recvs := by
  cases v <;> rfl

theorem Variant.recvBody_maintains (v : Variant) :
    Maintains v.recvBody RecvInv RecvInv RecvIter.honoured RecvIter.safe := by
  cases v
  · exact CS260_Assignment3_Client.cs260_recvBody_maintains true
  · exact CS260_Assignment3_Client.cs260_recvBody_maintains false
  · exact FakeHttpClient.fake_recvBody_maintains

theorem Variant.recvBody_logs (v : Variant) : Logs v.recvBody RecvInv RecvIter.res := by
  cases v
  · exact CS260_Assignment3_Client.cs260_recvBody_logs true
  · exact CS260_Assignment3_Client.cs260_recvBody_logs false
  · exact FakeHttpClient.fake_recvBody_logs

theorem Variant.recvBody_exits (v : Variant) : Exits v.recvBody RecvInv (.ok []) := by
  cases v
  · exact CS260_Assignment3_Client.cs260_recvBody_exits true
  · exact CS260_Assignment3_Client.cs260_recvBody_exits false
  · exact FakeHttpClient.fake_recvBody_exits

theorem Variant.recvBody_continues (v : Variant) (r : RecvResult)
    (hr : r.transient ∨ r.positive) :
    Continues v.recvBody RecvInv RecvIter.honoured r := by
  cases v
  · exact CS260_Assignment3_Client.cs260_recvBody_continues true r hr
  · exact CS260_Assignment3_Client.cs260_recvBody_continues false r hr
  · exact FakeHttpClient.fake_recvBody_continues r hr

theorem Variant.recvBody_finishes (v : Variant) (r : RecvResult) (hr : r.terminal) :
    Finishes v.recvBody RecvInv r := by
  cases v
  · exact CS260_Assignment3_Client.cs260_recvBody_finishes true r hr
  · exact CS260_Assignment3_Client.cs260_recvBody_finishes false r hr
  · exact FakeHttpClient.fake_recvBody_finishes r hr

theorem Variant.recvBody_exit_only_zero (v : Variant) (st st' : RecvState) (r : RecvResult)
    (h : (v.recvBody st r).2 = .exit st') : r = .ok [] := by
  cases v
  · exact CS260_Assignment3_Client.cs260_recvBody_exit_only_zero true st st' r h
  · exact CS260_Assignment3_Client.cs260_recvBody_exit_only_zero false st st' r h
  · exact FakeHttpClient.fake_recvBody_exit_only_zero st st' r h

/-- The accumulating loop keeps the rest of the buffer zero. -/
theorem accumulating_maintains :
    Maintains (CS260_Assignment3_Client.recvBody false)
      (fun st => RecvInv st ∧ ZeroTail st) (fun st => RecvInv st ∧ ZeroTail st)
      RecvIter.honoured RecvIter.safe :=
  Maintains.and_also ZeroTail (CS260_Assignment3_Client.cs260_recvBody_maintains false)
    (fun _ h => h)
    (fun st r hst _ hg st' hc =>
      CS260_Assignment3_Client.cs260_recvBody_zeroTail st r hst hg st' hc)

theorem zeroTail_init : ZeroTail RecvState.init := by
  unfold ZeroTail
  rw [pendingBytes_init]
  simp only [RecvState.init, List.nil_append, zeroBuffer, Int.toNat_ofNat]

/-- The bounds of the receive buffer hold in every variant. -/
theorem Variant.recv_safe (v : Variant) (recvs : List RecvResult)
    (hhonoured : ∀ it ∈ (v.recvLoop recvs).log, it.honoured) :
    (v.recvLoop recvs).fin ≠ .fault ∧
    (∀ it ∈ (v.recvLoop recvs).log,
      it.safe ∧ 1 ≤ it.len - 1 ∧ it.len - 1 ≤ 1499 ∧
      ∀ d, it.res = .ok d → it.off + d.length ≤ 1499 ∧
        it.off + d.length < RECV_BUFFER_LEN) ∧
    (∀ st, (v.recvLoop recvs).fin = .fallthrough st →
      ∃ flushed, v.terminalFlush st = some flushed ∧
        ∀ s, flushed.head? = some s → NUL ∉ s ∧ s.length ≤ st.recvBuffer ∧
          st.recvBuffer ≤ 1498) := by
  rw [Variant.recvLoop_eq] at hhonoured ⊢
  obtain ⟨hsafe, hfault, hpost, _⟩ :=
    doWhile_maintains v.recvBody _ _ _ _ v.recvBody_maintains recvs _ recvInv_init hhonoured
  refine ⟨hfault, ?_, ?_⟩
  · intro it hit
    have hs := hsafe it hit
    obtain ⟨h1, h2, h3, _⟩ := hs
    refine ⟨hsafe it hit, by omega, ?_, ?_⟩
    · simp only [RECV_BUFFER_LEN] at h1; omega
    · intro d hd
      have := h3 d hd
      simp only [RECV_BUFFER_LEN] at this ⊢
      omega
  · intro st hfin
    cases v with
    | immediate => exact ⟨[], rfl, by simp⟩
    | fake => exact ⟨[], rfl, by simp⟩
    | accumulating =>
      obtain ⟨_, _, hpost', _⟩ :=
        doWhile_maintains _ _ _ _ _ accumulating_maintains recvs _
          ⟨recvInv_init, zeroTail_init⟩ hhonoured
      obtain ⟨hst, hz⟩ := hpost' st hfin
      refine ⟨_, CS260_Assignment3_Client.cs260_terminalFlush_accumulating st hst hz, ?_⟩
      intro s hs
      simp only [List.head?_cons, Option.some.injEq] at hs
      subst hs
      have hlen := length_takeWhile_le st.pendingBytes
      rw [pendingBytes_length st hst] at hlen
      obtain ⟨_, h2, h3⟩ := hst
      simp only [RECV_BUFFER_LEN] at h2
      exact ⟨nul_not_mem_takeWhile _, hlen, by omega⟩

section
variable {σ ρ ι : Type}

/-- Log entries are good when the scripted results are. -/
theorem doWhile_good (body : σ → ρ → List ι × Ctl σ) (Inv Post : σ → Prop)
    (Good P : ι → Prop) (GoodR : ρ → Prop) (hkeeps : Maintains body Inv Post Good P)
    (hres : ∀ st r, Inv st → GoodR r → ∀ it ∈ (body st r).1, Good it) :
    ∀ (script : List ρ) (st : σ), Inv st → (∀ r ∈ script, GoodR r) →
      ∀ it ∈ (doWhile body st script).log, Good it := by
  intro script
  induction script with
  | nil =>
    intro st _ _ it hit
    simp [doWhile_nil] at hit
  | cons r rest ih =>
    intro st hst hscript
    have hg := hres st r hst (hscript r (List.mem_cons_self _ _))
    have hk := hkeeps st r hst hg
    rcases hb : body st r with ⟨its, ctl⟩
    rw [hb] at hg hk
    cases ctl with
    | next st1 =>
      rw [doWhile_cons_next body st st1 r rest its hb]
      intro it hit
      rcases List.mem_append.mp hit with h | h
      · exact hg it h
      · exact ih st1 (hk.2.2.1 st1 rfl) (fun r' hr' => hscript r' (List.mem_cons_of_mem _ hr'))
          it h
    | exit st1 =>
      rw [doWhile_cons_exit body st st1 r rest its hb]
      exact hg
    | gotoEndSocket =>
      rw [doWhile_cons_goto body st r rest its hb]
      exact hg
    | fault =>
      rw [doWhile_cons_fault body st r rest its hb]
      exact hg

end

theorem Variant.recvBody_offset (v : Variant) (hv : v.unbuffered) (st : RecvState)
    (r : RecvResult) (hst : RecvInv st) (h0 : st.recvBuffer = 0)
    (hgood : ∀ it ∈ (v.recvBody st r).1, it.honoured) (st' : RecvState)
    (hctl : (v.recvBody st r).2 = .next st' ∨ (v.recvBody st r).2 = .exit st') :
    st'.recvBuffer = 0 := by
  rcases hv with rfl | rfl
  · exact CS260_Assignment3_Client.cs260_recvBody_immediate_offset st r hst h0 hgood st' hctl
  · exact FakeHttpClient.fake_recvBody_offset st r hst h0 hgood st' hctl

theorem Variant.unbuffered_maintains (v : Variant) (hv : v.unbuffered) (Good : RecvIter → Prop)
    (hgood : ∀ it, Good it → it.honoured) :
    Maintains v.recvBody (fun st => RecvInv st ∧ st.recvBuffer = 0)
      (fun st => RecvInv st ∧ st.recvBuffer = 0) Good RecvIter.safe :=
  Maintains.and_also (fun st => st.recvBuffer = 0) v.recvBody_maintains hgood
    (fun st r hst h0 hg st' hc =>
      v.recvBody_offset hv st r hst h0 (fun it hit => hgood it (hg it hit)) st' hc)

/-- In the unbuffered variants every `recv` call asks for 1499 bytes, so results of at
most 1499 bytes are within the length requested. -/
theorem Variant.unbuffered_honoured (v : Variant) (hv : v.unbuffered) (recvs : List RecvResult)
    (hshort : ∀ r ∈ recvs, r.bytes.length ≤ 1499) :
    ∀ it ∈ (v.recvLoop recvs).log, it.honoured := by
  rw [Variant.recvLoop_eq]
  refine doWhile_good v.recvBody _ _ _ _ (fun r => r.bytes.length ≤ 1499)
    (v.unbuffered_maintains hv RecvIter.honoured (fun _ h => h)) ?_ recvs _
    ⟨recvInv_init, rfl⟩ hshort
  intro st r hst hr it hit
  obtain ⟨it', hlog, hres⟩ := v.recvBody_logs st r hst.1
  obtain ⟨p, hp⟩ : ∃ p, (v.recvBody st r).1 = [⟨st.recvBuffer, st.recvBufferLength, r, p⟩] := by
    cases v
    · exact CS260_Assignment3_Client.cs260_recvBody_log true st hst.1 r
    · exact CS260_Assignment3_Client.cs260_recvBody_log false st hst.1 r
    · exact FakeHttpClient.fake_recvBody_log st hst.1 r
  rw [hp] at hit
  rw [List.mem_singleton.mp hit]
  intro d hd
  simp only at hd
  subst hd
  obtain ⟨⟨_, h2, _⟩, h0⟩ := hst
  simp only [RecvResult.bytes] at hr
  simp only [RECV_BUFFER_LEN] at h2
  simp only []
  omega

theorem flatten_data_of_log (log : List RecvIter) (pre : List RecvResult)
    (h : log.map RecvIter.res = pre ++ [.ok []]) :
    (log.map RecvIter.data).flatten = (pre.map RecvResult.bytes).flatten := by
  have : log.map RecvIter.data = (log.map RecvIter.res).map RecvResult.bytes := by
    simp [RecvIter.data, Function.comp_def]
  rw [this, h]
  simp [RecvResult.bytes]

theorem nul_free_of_log (log : List RecvIter) (pre : List RecvResult)
    (h : log.map RecvIter.res = pre ++ [.ok []]) (hnul : ∀ r ∈ pre, NUL ∉ r.bytes) :
    ∀ it ∈ log, NUL ∉ it.data := by
  intro it hit
  have hmem : it.res ∈ pre ++ [.ok []] := by
    rw [← h]
    exact List.mem_map_of_mem _ hit
  rcases List.mem_append.mp hmem with hm | hm
  · exact hnul _ hm
  · rw [List.mem_singleton] at hm
    simp [RecvIter.data, hm, RecvResult.bytes]

theorem accumulating_clean_maintains :
    Maintains (CS260_Assignment3_Client.recvBody false)
      (fun st => (RecvInv st ∧ ZeroTail st) ∧ NUL ∉ st.pendingBytes)
      (fun st => (RecvInv st ∧ ZeroTail st) ∧ NUL ∉ st.pendingBytes)
      (fun it => it.honoured ∧ NUL ∉ it.data) RecvIter.safe :=
  Maintains.and_also (fun st => NUL ∉ st.pendingBytes) accumulating_maintains
    (fun _ h => h.1)
    (fun st r hst hfree hg st' hc =>
      CS260_Assignment3_Client.cs260_recvBody_accumulating_clean st r hst.1 hfree hg st' hc)

/-- The output of a variant on a stream free of zero bytes, split in any way. -/
theorem Variant.received_of_split (v : Variant) (pre rest : List RecvResult)
    (hsplit : ∀ r ∈ pre, r.transient ∨ r.positive)
    (hnul : ∀ r ∈ pre, NUL ∉ r.bytes)
    (hhonoured : ∀ it ∈ (v.recvLoop (pre ++ .ok [] :: rest)).log, it.honoured) :
    v.received (pre ++ .ok [] :: rest)
      = some ((pre.map RecvResult.bytes).flatten ++ v.trailer) := by
  have hloop := Variant.recvLoop_eq v (pre ++ .ok [] :: rest)
  rw [hloop] at hhonoured
  obtain ⟨hlog, st, hfin⟩ := doWhile_script v.recvBody _ _ _ _ RecvIter.res
    v.recvBody_maintains v.recvBody_logs (.ok []) rest v.recvBody_exits pre RecvState.init
    (fun r hr => v.recvBody_continues r (hsplit r hr)) recvInv_init hhonoured
  have hdata := flatten_data_of_log _ pre hlog
  have hclean := nul_free_of_log _ pre hlog hnul
  have hgood : ∀ it ∈ (doWhile v.recvBody RecvState.init (pre ++ .ok [] :: rest)).log,
      it.honoured ∧ NUL ∉ it.data := fun it hit => ⟨hhonoured it hit, hclean it hit⟩
  cases v with
  | immediate =>
    have hb : Variant.immediate.recvBody = CS260_Assignment3_Client.recvBody true := rfl
    rw [hb] at hfin hdata hgood
    have hm := Variant.unbuffered_maintains .immediate (Or.inl rfl)
      (fun it => it.honoured ∧ NUL ∉ it.data) (fun _ h => h.1)
    have hbal := doWhile_balances (CS260_Assignment3_Client.recvBody true) _ _ _ _ _ _ _ hm
      CS260_Assignment3_Client.cs260_recvBody_immediate_balances _ _ ⟨recvInv_init, rfl⟩ hgood st
      (Or.inl hfin)
    obtain ⟨_, _, hpost, _⟩ := doWhile_maintains (CS260_Assignment3_Client.recvBody true) _ _ _ _ hm _ _ ⟨recvInv_init, rfl⟩ hgood
    rw [pendingBytes_init, pendingBytes_eq_nil st (hpost st hfin).2, hdata] at hbal
    simp only [List.nil_append, List.append_nil] at hbal
    show CS260_Assignment3_Client.received true _ = _
    unfold CS260_Assignment3_Client.received CS260_Assignment3_Client.recvLoop
    rw [hfin]
    simp only [CS260_Assignment3_Client.terminalFlush, Bool.not_true, Bool.false_eq_true,
      if_false, List.flatten_nil, List.append_nil, Variant.trailer, reduceCtorEq]
    rw [← hbal]
  | fake =>
    have hb : Variant.fake.recvBody = FakeHttpClient.recvBody := rfl
    rw [hb] at hfin hdata hgood
    have hm := Variant.unbuffered_maintains .fake (Or.inr rfl)
      (fun it => it.honoured ∧ NUL ∉ it.data) (fun _ h => h.1)
    have hbal := doWhile_balances FakeHttpClient.recvBody _ _ _ _ _ _ _ hm
      FakeHttpClient.fake_recvBody_balances _ _ ⟨recvInv_init, rfl⟩ hgood st (Or.inl hfin)
    obtain ⟨_, _, hpost, _⟩ := doWhile_maintains FakeHttpClient.recvBody _ _ _ _ hm _ _ ⟨recvInv_init, rfl⟩ hgood
    rw [pendingBytes_init, pendingBytes_eq_nil st (hpost st hfin).2, hdata] at hbal
    simp only [List.nil_append, List.append_nil] at hbal
    show FakeHttpClient.received _ = _
    unfold FakeHttpClient.received FakeHttpClient.recvLoop
    rw [hfin]
    simp only [Variant.trailer, reduceCtorEq, if_false, List.append_nil]
    rw [← hbal]
  | accumulating =>
    have hb : Variant.accumulating.recvBody = CS260_Assignment3_Client.recvBody false := rfl
    rw [hb] at hfin hdata hgood
    have hinit : (RecvInv RecvState.init ∧ ZeroTail RecvState.init)
        ∧ NUL ∉ RecvState.init.pendingBytes :=
      ⟨⟨recvInv_init, zeroTail_init⟩, by rw [pendingBytes_init]; simp⟩
    have hbal := doWhile_balances _ _ _ _ _ _ _ _ accumulating_clean_maintains
      (balances_weaken CS260_Assignment3_Client.cs260_recvBody_accumulating_balances
        (fun st h => ⟨h.1.1, h.2⟩) (fun _ h => h)) _ _ hinit hgood st (Or.inl hfin)
    obtain ⟨_, _, hpost, _⟩ :=
      doWhile_maintains _ _ _ _ _ accumulating_clean_maintains _ _ hinit hgood
    obtain ⟨⟨hst, hz⟩, hfree⟩ := hpost st hfin
    rw [pendingBytes_init, hdata] at hbal
    simp only [List.nil_append] at hbal
    show CS260_Assignment3_Client.received false _ = _
    unfold CS260_Assignment3_Client.received CS260_Assignment3_Client.recvLoop
    rw [hfin]
    simp only [CS260_Assignment3_Client.cs260_terminalFlush_accumulating st hst hz,
      takeWhile_nul_free _ hfree, Variant.trailer, if_true, List.flatten_cons,
      List.flatten_nil, List.append_nil]
    rw [hbal, List.append_assoc]

theorem init_offset : RecvState.init.recvBuffer = 0 := rfl

theorem init_length : RecvState.init.recvBufferLength = 1500 := rfl

/-- FakeHttpClient's loop on one chunk followed by the peer's close writes the chunk up
to its first zero byte. -/
theorem FakeHttpClient.fake_received_one_chunk (d : List Char) (hpos : 0 < d.length)
    (hlen : d.length ≤ 1499) (rest : List RecvResult) :
    FakeHttpClient.received (.ok d :: .ok [] :: rest)
      = some (d.takeWhile (fun c => c != NUL)) := by
  have hd : (d.length : Int) ≤ RecvState.init.recvBufferLength - 1 := by
    rw [init_length]; omega
  have hb1 := FakeHttpClient.fake_recvBody_ok RecvState.init recvInv_init d hd
  rw [if_pos hpos] at hb1
  have hst1 := recvInv_stored RecvState.init recvInv_init d hd
  have hb2 := FakeHttpClient.fake_recvBody_ok _ hst1 [] (zero_le_cursor _ hst1)
  rw [if_neg (by simp)] at hb2
  unfold FakeHttpClient.received FakeHttpClient.recvLoop
  rw [doWhile_cons_next _ _ _ _ _ _ hb1]
  simp only [doWhile_cons_exit _ _ _ _ _ _ hb2, List.singleton_append, List.map_cons,
    List.map_nil, text_printed, text_silent, List.flatten_cons, List.flatten_nil,
    List.append_nil]

/-- The log of the accumulating loop on one chunk that does not fill the buffer,
followed by the peer's close. -/
theorem CS260_Assignment3_Client.cs260_accumulating_one_chunk (d : List Char) (hpos : 0 < d.length)
    (hlen : d.length ≤ 1497) (rest : List RecvResult) :
    (CS260_Assignment3_Client.recvLoop false (.ok d :: .ok [] :: rest)).log
      = [⟨0, 1500, .ok d, none⟩, ⟨d.length, 1500 - d.length, .ok [], none⟩] := by
  have hd : (d.length : Int) ≤ RecvState.init.recvBufferLength - 1 := by
    rw [init_length]; omega
  have hfull : ¬ RecvState.init.recvBufferLength - (d.length : Int) ≤ 1 := by
    rw [init_length]; omega
  have hb1 := CS260_Assignment3_Client.cs260_recvBody_accumulating_ok RecvState.init recvInv_init d hd
  rw [if_neg hfull, if_pos (by omega)] at hb1
  have hst1 := recvInv_advanced RecvState.init recvInv_init d hfull
  have hb2 := CS260_Assignment3_Client.cs260_recvBody_accumulating_ok _ hst1 []
    (zero_le_cursor _ hst1)
  rw [if_neg (by obtain ⟨_, _, h3⟩ := hst1; simp only [List.length_nil]; push_cast; omega),
    if_neg (by simp)] at hb2
  unfold CS260_Assignment3_Client.recvLoop
  rw [doWhile_cons_next _ _ _ _ _ _ hb1, doWhile_cons_exit _ _ _ _ _ _ hb2]
  simp only [List.singleton_append, init_offset, init_length, Nat.zero_add]

theorem doWhile_cons_log {σ ρ ι : Type} (body : σ → ρ → List ι × Ctl σ) (st : σ) (r : ρ)
    (rest : List ρ) : ∃ tail, (doWhile body st (r :: rest)).log = (body st r).1 ++ tail := by
  rcases hb : body st r with ⟨its, ctl⟩
  cases ctl with
  | next st1 => exact ⟨_, by rw [doWhile_cons_next body st st1 r rest its hb]⟩
  | exit st1 => exact ⟨[], by rw [doWhile_cons_exit body st st1 r rest its hb]; simp⟩
  | gotoEndSocket => exact ⟨[], by rw [doWhile_cons_goto body st r rest its hb]; simp⟩
  | fault => exact ⟨[], by rw [doWhile_cons_fault body st r rest its hb]; simp⟩

theorem Variant.recvBody_hard (v : Variant) (st : RecvState) (hst : RecvInv st) (e : Int)
    (he : hardError e = true) : (v.recvBody st (.error e)).2 = .gotoEndSocket := by
  cases v
  · show (CS260_Assignment3_Client.recvBody true st (.error e)).2 = _
    rw [CS260_Assignment3_Client.cs260_recvBody_error true st hst e, if_pos he]
  · show (CS260_Assignment3_Client.recvBody false st (.error e)).2 = _
    rw [CS260_Assignment3_Client.cs260_recvBody_error false st hst e, if_pos he]
  · show (FakeHttpClient.recvBody st (.error e)).2 = _
    rw [FakeHttpClient.fake_recvBody_error st hst e, if_pos he]

/-- C3: in both programs and both buffering modes (the three
variants), at every iteration of the receive loop (every cursor that satisfies the loop
invariant): the loop condition fails, so that control falls out of the loop, if and only
if the iteration's `recv` returned exactly 0 bytes with no error; an iteration whose
`recv` reports `EAGAIN` or `WSAEWOULDBLOCK`, and an iteration whose `recv` returned
`n > 0` bytes (at most the length requested), is followed by another `recv` call, which
consumes the next scripted result.  An error other than would-block does not end the
loop through its condition: the body jumps to `end_socket` (the abort of the
specification's section 4.3, step 4). -/
theorem receive_loop_ends_only_on_zero (v : Variant) (st : RecvState) (hst : RecvInv st) :
    (∀ r, (∃ st', (v.recvBody st r).2 = .exit st') ↔ r = .ok []) ∧
    (∀ r r' rest, r.transient ∨ r.positive →
      (∀ d, r = .ok d → (d.length : Int) ≤ st.recvBufferLength - 1) →
      ∃ it1 it2 tail, (doWhile v.recvBody st (r :: r' :: rest)).log = it1 :: it2 :: tail ∧
        it1.res = r ∧ it2.res = r') ∧
    (∀ e, hardError e = true → (v.recvBody st (.error e)).2 = .gotoEndSocket) := by
  refine ⟨?_, ?_, fun e he => v.recvBody_hard st hst e he⟩
  · intro r
    constructor
    · rintro ⟨st', h⟩
      exact v.recvBody_exit_only_zero st st' r h
    · rintro rfl
      exact v.recvBody_exits st hst
  · intro r r' rest hr hbound
    obtain ⟨it1, hl1, hr1⟩ := v.recvBody_logs st r hst
    have hgood : ∀ it ∈ (v.recvBody st r).1, it.honoured := by
      have hshape : ∃ p, (v.recvBody st r).1
          = [⟨st.recvBuffer, st.recvBufferLength, r, p⟩] := by
        cases v
        · exact CS260_Assignment3_Client.cs260_recvBody_log true st hst r
        · exact CS260_Assignment3_Client.cs260_recvBody_log false st hst r
        · exact FakeHttpClient.fake_recvBody_log st hst r
      obtain ⟨p, hp⟩ := hshape
      rw [hp]
      intro it hit d hd
      rw [List.mem_singleton.mp hit] at hd ⊢
      exact hbound d hd
    obtain ⟨st1, hs⟩ := v.recvBody_continues r hr st hst hgood
    have hst1 := (v.recvBody_maintains st r hst hgood).2.2.1 st1 hs
    have hb : v.recvBody st r = ([it1], .next st1) := Prod.ext hl1 hs
    obtain ⟨it2, hl2, hr2⟩ := v.recvBody_logs st1 r' hst1
    obtain ⟨tail, ht⟩ := doWhile_cons_log v.recvBody st1 r' rest
    refine ⟨it1, it2, tail, ?_, hr1, hr2⟩
    rw [doWhile_cons_next v.recvBody st st1 r (r' :: rest) [it1] hb, ht, hl2]
    rfl

/-- A concrete iteration of FakeHttpClient's loop at the initial cursor: a result of 0
bytes leaves the loop, and a would-block result is followed by the next `recv`. -/
theorem receive_loop_ends_only_on_zero_witness :
    RecvInv RecvState.init ∧
    ((∃ st', (Variant.fake.recvBody RecvState.init (.ok [])).2 = .exit st')
      ↔ RecvResult.ok [] = .ok []) ∧
    (∃ it1 it2 tail,
      (doWhile Variant.fake.recvBody RecvState.init
        [.error WSAEWOULDBLOCK, .ok ['h', 'i'], .ok []]).log = it1 :: it2 :: tail ∧
      it1.res = .error WSAEWOULDBLOCK ∧ it2.res = .ok ['h', 'i']) :=
  ⟨recvInv_init,
    (receive_loop_ends_only_on_zero .fake RecvState.init recvInv_init).1 (.ok []),
    (receive_loop_ends_only_on_zero .fake RecvState.init recvInv_init).2.1
      (.error WSAEWOULDBLOCK) (.ok ['h', 'i']) [.ok []]
      (Or.inl ⟨WSAEWOULDBLOCK, rfl, by decide⟩) (by simp)⟩

/-- C2 (as amended): for every response byte stream that holds no zero byte, split in
any way into successful `recv` results of at least one byte with would-block results
anywhere in between (`pre`), each result at most the length requested, and followed by
the peer's close (a `recv` result of 0): the receive loop falls through, and everything
written to standard output up to and including the terminal flush is exactly the stream
in immediate mode and in FakeHttpClient's loop, and is the stream followed by one newline
(the `std::endl` of the terminal flush) in accumulating mode. -/
theorem receive_loop_reproduces_stream (v : Variant) (pre rest : List RecvResult)
    (hsplit : ∀ r ∈ pre, r.transient ∨ r.positive)
    (hnul : ∀ r ∈ pre, NUL ∉ r.bytes)
    (hhonoured : ∀ it ∈ (v.recvLoop (pre ++ .ok [] :: rest)).log, it.honoured) :
    v.received (pre ++ .ok [] :: rest)
      = some ((pre.map RecvResult.bytes).flatten ++ v.trailer) :=
  v.received_of_split pre rest hsplit hnul hhonoured

/-- The immediate loop on one chunk followed by the peer's close writes the chunk up to
its first zero byte. -/
theorem CS260_Assignment3_Client.cs260_immediate_one_chunk (d : List Char) (hpos : 0 < d.length)
    (hlen : d.length ≤ 1499) (rest : List RecvResult) :
    CS260_Assignment3_Client.received true (.ok d :: .ok [] :: rest)
      = some (d.takeWhile (fun c => c != NUL)) := by
  have hd : (d.length : Int) ≤ RecvState.init.recvBufferLength - 1 := by
    rw [init_length]; omega
  have hb1 := CS260_Assignment3_Client.cs260_recvBody_immediate_ok RecvState.init recvInv_init d hd
  rw [if_pos (by omega)] at hb1
  have hst1 := recvInv_stored RecvState.init recvInv_init d hd
  have hb2 := CS260_Assignment3_Client.cs260_recvBody_immediate_ok _ hst1 [] (zero_le_cursor _ hst1)
  rw [if_neg (by simp)] at hb2
  unfold CS260_Assignment3_Client.received CS260_Assignment3_Client.recvLoop
  rw [doWhile_cons_next _ _ _ _ _ _ hb1, doWhile_cons_exit _ _ _ _ _ _ hb2]
  simp only [CS260_Assignment3_Client.terminalFlush, List.singleton_append, List.map_cons,
    List.map_nil, text_printed, List.flatten_cons, List.flatten_nil, List.append_nil,
    List.takeWhile_nil, Bool.not_true, Bool.false_eq_true, if_false]

/-- Scenario A in FakeHttpClient: a would-block result, then the response in one chunk,
then the peer's close; the output is exactly the response. -/
theorem receive_loop_reproduces_stream_witness :
    Variant.fake.received
      [.error WSAEWOULDBLOCK, .ok "HTTP/1.1 200 OK\r\n\r\nhello".toList, .ok []]
      = some "HTTP/1.1 200 OK\r\n\r\nhello".toList := by
  have h := receive_loop_reproduces_stream .fake
    [.error WSAEWOULDBLOCK, .ok "HTTP/1.1 200 OK\r\n\r\nhello".toList] []
    (by
      intro r hr
      simp only [List.mem_cons, List.mem_singleton, List.not_mem_nil, or_false] at hr
      rcases hr with rfl | rfl
      · exact Or.inl ⟨WSAEWOULDBLOCK, rfl, by decide⟩
      · exact Or.inr ⟨_, rfl, by decide⟩)
    (by decide)
    (Variant.unbuffered_honoured .fake (Or.inr rfl) _ (by decide))
  simpa [RecvResult.bytes, Variant.trailer] using h

/-- C2 (counterexample): a response that holds a zero byte is cut at that byte, in
FakeHttpClient's loop and in immediate mode (the peer sends the three bytes `a`, 0, `b`
and closes; the output is the single byte `a`); and in accumulating mode the output is
the stream followed by a newline (the peer sends `hi` and closes; the output is `hi`
and a newline), so the two modes do not produce the same bytes. -/
theorem receive_loop_output_differs :
    (FakeHttpClient.received [.ok ['a', NUL, 'b'], .ok []] = some ['a'] ∧
      FakeHttpClient.received [.ok ['a', NUL, 'b'], .ok []] ≠ some ['a', NUL, 'b']) ∧
    (CS260_Assignment3_Client.received true [.ok ['a', NUL, 'b'], .ok []] = some ['a'] ∧
      CS260_Assignment3_Client.received true [.ok ['a', NUL, 'b'], .ok []]
        ≠ some ['a', NUL, 'b']) ∧
    (CS260_Assignment3_Client.received false [.ok ['h', 'i'], .ok []]
        = some ['h', 'i', Char.ofNat 10] ∧
      CS260_Assignment3_Client.received false [.ok ['h', 'i'], .ok []] ≠ some ['h', 'i'] ∧
      CS260_Assignment3_Client.received true [.ok ['h', 'i'], .ok []] = some ['h', 'i']) := by
  have h1 : FakeHttpClient.received [.ok ['a', NUL, 'b'], .ok []] = some ['a'] := by
    rw [FakeHttpClient.fake_received_one_chunk _ (by decide) (by decide)]
    decide
  have h2 : CS260_Assignment3_Client.received true [.ok ['a', NUL, 'b'], .ok []]
      = some ['a'] := by
    rw [CS260_Assignment3_Client.cs260_immediate_one_chunk _ (by decide) (by decide)]
    decide
  have h3 : CS260_Assignment3_Client.received false [.ok ['h', 'i'], .ok []]
      = some ['h', 'i', Char.ofNat 10] := by
    have h := Variant.received_of_split .accumulating [.ok ['h', 'i']] []
      (by
        intro r hr
        rw [List.mem_singleton.mp hr]
        exact Or.inr ⟨_, rfl, by decide⟩)
      (by decide)
      (by
        show ∀ it ∈ (CS260_Assignment3_Client.recvLoop false [.ok ['h', 'i'], .ok []]).log,
          it.honoured
        rw [CS260_Assignment3_Client.cs260_accumulating_one_chunk _ (by decide) (by decide)]
        intro it hit d hd
        simp only [List.mem_cons, List.mem_singleton, List.not_mem_nil, or_false] at hit
        rcases hit with rfl | rfl
        · simp only [RecvResult.ok.injEq] at hd
          subst hd
          decide
        · simp only [RecvResult.ok.injEq] at hd
          subst hd
          decide)
    simpa [RecvResult.bytes, Variant.trailer] using h
  have h4 : CS260_Assignment3_Client.received true [.ok ['h', 'i'], .ok []]
      = some ['h', 'i'] := by
    rw [CS260_Assignment3_Client.cs260_immediate_one_chunk _ (by decide) (by decide)]
    decide
  refine ⟨⟨h1, ?_⟩, ⟨h2, ?_⟩, h3, ?_, h4⟩
  · rw [h1]; decide
  · rw [h2]; decide
  · rw [h3]; decide

/-- C9: in both programs and both buffering modes (the three
variants), for every sequence of `recv` results in which each successful result is at
most the length requested: no read or write leaves the buffer (`fin ≠ fault`; this covers
the store `recvBuffer[res] = 0` of FakeHttpClient.cpp and every text output); at every
`recv` call the write offset `o` and the remaining length `r` satisfy
`o + r = RECV_BUFFER_LEN` and `r ≥ 2`, so `recv` is asked for between 1 and 1499 bytes;
the bytes received end at or before index 1498; every text written inside the loop is
free of zero bytes and its terminator is found at or before the index that follows the
last byte received; and the terminal flush finds its terminator at or before the write
offset, which is at most 1498. -/
theorem receive_buffer_invariant (v : Variant) (recvs : List RecvResult)
    (hhonoured : ∀ it ∈ (v.recvLoop recvs).log, it.honoured) :
    (v.recvLoop recvs).fin ≠ .fault ∧
    (∀ it ∈ (v.recvLoop recvs).log,
      it.safe ∧ 1 ≤ it.len - 1 ∧ it.len - 1 ≤ 1499 ∧
      ∀ d, it.res = .ok d → it.off + d.length ≤ 1499 ∧
        it.off + d.length < RECV_BUFFER_LEN) ∧
    (∀ st, (v.recvLoop recvs).fin = .fallthrough st →
      ∃ flushed, v.terminalFlush st = some flushed ∧
        ∀ s, flushed.head? = some s → NUL ∉ s ∧ s.length ≤ st.recvBuffer ∧
          st.recvBuffer ≤ 1498) :=
  v.recv_safe recvs hhonoured

/-- A concrete run of FakeHttpClient's loop: a would-block result, two bytes, then the
peer's close. -/
theorem receive_buffer_invariant_witness :
    (∀ it ∈ (Variant.fake.recvLoop [.error EAGAIN, .ok ['h', 'i'], .ok []]).log,
      it.honoured) ∧
    (Variant.fake.recvLoop [.error EAGAIN, .ok ['h', 'i'], .ok []]).fin ≠ .fault ∧
    (∀ it ∈ (Variant.fake.recvLoop [.error EAGAIN, .ok ['h', 'i'], .ok []]).log,
      it.safe ∧ 1 ≤ it.len - 1 ∧ it.len - 1 ≤ 1499 ∧
      ∀ d, it.res = .ok d → it.off + d.length ≤ 1499 ∧
        it.off + d.length < RECV_BUFFER_LEN) :=
  ⟨Variant.unbuffered_honoured .fake (Or.inr rfl) _ (by decide),
    (receive_buffer_invariant .fake [.error EAGAIN, .ok ['h', 'i'], .ok []]
      (Variant.unbuffered_honoured .fake (Or.inr rfl) _ (by decide))).1,
    (receive_buffer_invariant .fake [.error EAGAIN, .ok ['h', 'i'], .ok []]
      (Variant.unbuffered_honoured .fake (Or.inr rfl) _ (by decide))).2.1⟩

/-! ## The request and the arguments -/

theorem matchLiteral_append (lit s : List Char) : matchLiteral lit (lit ++ s) = .matched s := by
  induction lit with
  | nil => rfl
  | cons c lit ih => simp [matchLiteral, ih]

theorem matchLiteral_matched (lit s rest : List Char) (h : matchLiteral lit s = .matched rest) :
    s = lit ++ rest := by
  induction lit generalizing s with
  | nil =>
    simp only [matchLiteral, LitMatch.matched.injEq] at h
    simp [h]
  | cons c lit ih =>
    cases s with
    | nil => simp [matchLiteral] at h
    | cons d s =>
      simp only [matchLiteral] at h
      by_cases hcd : c = d
      · rw [if_pos hcd] at h
        rw [ih s h, hcd]
        rfl
      · rw [if_neg hcd] at h
        cases h

theorem scanExcept_all (stop : Char) (w : Nat) (a : List Char) (hstop : stop ∉ a)
    (hlen : a.length ≤ w) : scanExcept stop w a = (a, []) := by
  induction a generalizing w with
  | nil => cases w <;> rfl
  | cons c a ih =>
    cases w with
    | zero => simp at hlen
    | succ w =>
      simp only [List.mem_cons, not_or] at hstop
      have hc : ¬ c = stop := fun e => hstop.1 e.symm
      simp only [scanExcept, if_neg hc, ih w hstop.2 (by simpa using hlen)]

theorem scanExcept_stop (stop : Char) (w : Nat) (a b : List Char) (hstop : stop ∉ a)
    (hlen : a.length ≤ w) (hb : b = [] ∨ b.head? = some stop) :
    scanExcept stop w (a ++ b) = (a, b) := by
  induction a generalizing w with
  | nil =>
    rcases hb with rfl | hb
    · cases w <;> rfl
    · cases b with
      | nil => cases w <;> rfl
      | cons d b =>
        simp only [List.head?_cons, Option.some.injEq] at hb
        subst hb
        cases w with
        | zero => rfl
        | succ w => simp [scanExcept]
  | cons c a ih =>
    cases w with
    | zero => simp at hlen
    | succ w =>
      simp only [List.mem_cons, not_or] at hstop
      have hc : ¬ c = stop := fun e => hstop.1 e.symm
      show scanExcept stop (w + 1) (c :: (a ++ b)) = (c :: a, b)
      simp only [scanExcept, if_neg hc, ih w hstop.2 (by simpa using hlen)]


/-- The URL argument `http://` followed by `host` and `path`. -/
theorem sscanf_url_of_parts (host path : List Char) (hne : host ≠ [])
    (hslash : '/' ∉ host) (hhost : host.length ≤ 255)
    (hpath : path = [] ∨ path.head? = some '/') (hlen : path.length ≤ 255)
    (hnl : Char.ofNat 10 ∉ path) :
    sscanf_url ("http://".toList ++ host ++ path)
      = if path = [] then ⟨1, host, []⟩ else ⟨2, host, path⟩ := by
  unfold sscanf_url
  rw [List.append_assoc, matchLiteral_append]
  cases host with
  | nil => exact absurd rfl hne
  | cons c host =>
    simp only [List.cons_append]
    have h1 := scanExcept_stop '/' 255 (c :: host) path hslash hhost hpath
    simp only [List.cons_append] at h1
    rw [h1]
    simp only [reduceCtorEq, if_false]
    rw [scanExcept_all (Char.ofNat 10) 255 path hnl hlen]

/-- C5 (as amended): for every URL argument of the form `http://` followed by `host` and
`path`, where `host` is non-empty, holds no `/` and has at most 255 characters, and
`path` is either empty or begins with `/`, has at most 255 characters and holds no
newline: the argument is accepted (at least one conversion), the parsed host is `host`,
and the resource placed in the request line is `path` when `path` is non-empty and is
`/` when `path` is empty. -/
theorem url_split (host path : List Char) (hne : host ≠ [])
    (hslash : '/' ∉ host) (hhost : host.length ≤ 255)
    (hpath : path = [] ∨ path.head? = some '/') (hlen : path.length ≤ 255)
    (hnl : Char.ofNat 10 ∉ path) :
    1 ≤ (sscanf_url ("http://".toList ++ host ++ path)).tokens ∧
    (sscanf_url ("http://".toList ++ host ++ path)).url = host ∧
    defaultResource (sscanf_url ("http://".toList ++ host ++ path))
      = if path = [] then ['/'] else path := by
  rw [sscanf_url_of_parts host path hne hslash hhost hpath hlen hnl]
  by_cases hp : path = []
  · simp [hp, defaultResource]
  · simp [hp, defaultResource]

/-- The example of the specification: no path after the host gives the path `/`. -/
theorem url_split_witness :
    1 ≤ (sscanf_url "http://example.com:8080".toList).tokens ∧
    (sscanf_url "http://example.com:8080".toList).url = "example.com:8080".toList ∧
    defaultResource (sscanf_url "http://example.com:8080".toList) = ['/'] := by
  have h := url_split "example.com:8080".toList [] (by decide) (by decide) (by decide)
    (Or.inl rfl) (by decide) (by decide)
  simpa using h

set_option maxRecDepth 8000 in
/-- C5 (counterexample): a host of 256 characters is cut after 255 and its last
character becomes the resource; a path that holds a newline is cut at the newline; a
path of 256 characters is cut after 255. -/
theorem url_split_cuts :
    ((sscanf_url ("http://".toList ++ List.replicate 256 'a' ++ [])).url
        = List.replicate 255 'a' ∧
      (sscanf_url ("http://".toList ++ List.replicate 256 'a' ++ [])).url
        ≠ List.replicate 256 'a' ∧
      defaultResource (sscanf_url ("http://".toList ++ List.replicate 256 'a' ++ []))
        = ['a']) ∧
    defaultResource (sscanf_url ("http://".toList ++ ['h'] ++ ['/', 'a', Char.ofNat 10, 'b']))
      = ['/', 'a'] ∧
    defaultResource (sscanf_url ("http://".toList ++ ['h'] ++ '/' :: List.replicate 255 'a'))
      = '/' :: List.replicate 254 'a' := by
  refine ⟨⟨?_, ?_, ?_⟩, ?_, ?_⟩ <;> decide

/-- C4: for every parsed host `h` and resource path `p` the
request a variant builds, which `main` hands to the send loop, is exactly `GET p
HTTP/1.1`, `Host: h` and `Connection: close`, each ended by CR LF, then the variant's
extra headers (none in CS260_Assignment3_Client, `User-Agent: curl/8.9.1` and
`Accept: */*` in FakeHttpClient), then the final CR LF, and nothing after it; for
`h = localhost` and `p = /index.html` the minimal variant gives the request of
scenario A. -/
theorem request_is_exact (h p : CStr) :
    CS260_Assignment3_Client.message h p
      = "GET ".toList ++ p ++ " HTTP/1.1\r\nHost: ".toList ++ h
        ++ "\r\nConnection: close\r\n".toList ++ [] ++ "\r\n".toList ∧
    FakeHttpClient.message h p
      = "GET ".toList ++ p ++ " HTTP/1.1\r\nHost: ".toList ++ h
        ++ "\r\nConnection: close\r\n".toList
        ++ "User-Agent: curl/8.9.1\r\nAccept: */*\r\n".toList ++ "\r\n".toList ∧
    CS260_Assignment3_Client.message "localhost".toList "/index.html".toList
      = "GET /index.html HTTP/1.1\r\nHost: localhost\r\nConnection: close\r\n\r\n".toList := by
  refine ⟨?_, ?_, ?_⟩
  · simp [CS260_Assignment3_Client.message]
  · simp [FakeHttpClient.message]
  · decide

/-! ## The run of `main` -/

theorem sscanf_url_rejects (a1 : CStr)
    (h : (∀ rest, a1 ≠ "http://".toList ++ rest) ∨
      ∃ rest, a1 = "http://".toList ++ rest ∧ (rest = [] ∨ rest.head? = some '/')) :
    (sscanf_url a1).tokens < 1 := by
  unfold sscanf_url
  rcases h with h | ⟨rest, rfl, hrest⟩
  · cases hm : matchLiteral "http://".toList a1 with
    | matched rest => exact absurd (matchLiteral_matched _ _ _ hm) (h rest)
    | mismatch => decide
    | inputEnd => decide
  · rw [matchLiteral_append]
    cases rest with
    | nil => decide
    | cons c rest =>
      rcases hrest with hrest | hrest
      · cases hrest
      · simp only [List.head?_cons, Option.some.injEq] at hrest
        subst hrest
        simp [scanExcept]

theorem CS260_Assignment3_Client.cs260_main_rejects (m : Bool) (argv : List CStr) (env : Env)
    (h : argv.length ≠ 3 ∨ ∃ prog a1 a2, argv = [prog, a1, a2] ∧ (sscanf_url a1).tokens < 1) :
    CS260_Assignment3_Client.main m argv env = ⟨[], [], some 1⟩ := by
  rcases h with h | ⟨prog, a1, a2, rfl, ht⟩
  · unfold CS260_Assignment3_Client.main
    split
    · simp at h
    · rfl
  · simp only [CS260_Assignment3_Client.main, if_pos ht]

theorem FakeHttpClient.fake_main_rejects (argv : List CStr) (env : Env) (clock : Clock)
    (h : argv.length ≠ 3 ∨ ∃ prog a1 a2, argv = [prog, a1, a2] ∧ (sscanf_url a1).tokens < 1) :
    FakeHttpClient.main argv env clock = ⟨[], [], some 1⟩ := by
  rcases h with h | ⟨prog, a1, a2, rfl, ht⟩
  · unfold FakeHttpClient.main
    split
    · simp at h
    · rfl
  · simp only [FakeHttpClient.main, if_pos ht]

/-- C7: in both programs (the three variants), for every invocation in which the
argument count is not exactly two positional arguments (`argv`, which holds the program
name too, has a length other than 3), or the URL argument does not begin with `http://`,
or has an empty host after it (nothing, or a `/`, follows `http://`): `main` returns
exit status 1 having made no system call at all (no `WSAStartup`, `socket`, `connect`,
`send`, `recv`, `shutdown`, `closesocket` or `WSACleanup`) and written nothing to
standard output. -/
theorem bad_arguments_exit_one (v : Variant) (argv : List CStr) (env : Env) (clock : Clock)
    (h : argv.length ≠ 3 ∨ ∃ prog a1 a2, argv = [prog, a1, a2] ∧
      ((∀ rest, a1 ≠ "http://".toList ++ rest) ∨
        ∃ rest, a1 = "http://".toList ++ rest ∧ (rest = [] ∨ rest.head? = some '/'))) :
    (v.main argv env clock).exit = some 1 ∧ (v.main argv env clock).calls = [] ∧
    (v.main argv env clock).out = [] := by
  have h' : argv.length ≠ 3 ∨ ∃ prog a1 a2, argv = [prog, a1, a2] ∧
      (sscanf_url a1).tokens < 1 := by
    rcases h with h | ⟨prog, a1, a2, he, hu⟩
    · exact Or.inl h
    · exact Or.inr ⟨prog, a1, a2, he, sscanf_url_rejects a1 hu⟩
  cases v
  · have e : Variant.immediate.main argv env clock
        = CS260_Assignment3_Client.main true argv env := rfl
    rw [e, CS260_Assignment3_Client.cs260_main_rejects true argv env h']
    exact ⟨rfl, rfl, rfl⟩
  · have e : Variant.accumulating.main argv env clock
        = CS260_Assignment3_Client.main false argv env := rfl
    rw [e, CS260_Assignment3_Client.cs260_main_rejects false argv env h']
    exact ⟨rfl, rfl, rfl⟩
  · have e : Variant.fake.main argv env clock = FakeHttpClient.main argv env clock := rfl
    rw [e, FakeHttpClient.fake_main_rejects argv env clock h']
    exact ⟨rfl, rfl, rfl⟩

/-- Scenario C: the URL lacks `http://`; exit status 1 and no system call. -/
theorem bad_arguments_exit_one_witness :
    (Variant.fake.main ["client".toList, "localhost/index.html".toList, "9999".toList]
      ⟨0, 1, some 7, 0, 0, [], 0, [], 0, 0, 0⟩ ⟨0, 0, 0⟩).exit = some 1 ∧
    (Variant.fake.main ["client".toList, "localhost/index.html".toList, "9999".toList]
      ⟨0, 1, some 7, 0, 0, [], 0, [], 0, 0, 0⟩ ⟨0, 0, 0⟩).calls = [] ∧
    (Variant.fake.main ["client".toList, "localhost/index.html".toList, "9999".toList]
      ⟨0, 1, some 7, 0, 0, [], 0, [], 0, 0, 0⟩ ⟨0, 0, 0⟩).out = [] :=
  bad_arguments_exit_one .fake
    ["client".toList, "localhost/index.html".toList, "9999".toList]
    ⟨0, 1, some 7, 0, 0, [], 0, [], 0, 0, 0⟩ ⟨0, 0, 0⟩
    (Or.inr ⟨_, _, _, rfl, Or.inl (by
      intro rest h
      have h7 := congrArg (List.take 7) h
      simp at h7)⟩)

namespace CS260_Assignment3_Client

theorem cs260_label_end_calls (env : Env) (calls : List Call) (out : List Out) :
    (label_end env calls out).calls = calls ++ [.WSACleanup] := by
  unfold label_end
  split <;> rfl

theorem cs260_label_end_exit (env : Env) (calls : List Call) (out : List Out) :
    (label_end env calls out).exit = some (if env.WSACleanup = 0 then 0 else 1) := by
  unfold label_end
  by_cases h : env.WSACleanup = 0 <;> simp [h]

theorem cs260_end_socket_calls (env : Env) (calls : List Call) (out : List Out) :
    (end_socket env calls out).calls = calls ++ [.closesocket, .WSACleanup] := by
  unfold end_socket
  split <;> simp [cs260_label_end_calls]

theorem cs260_end_socket_exit (env : Env) (calls : List Call) (out : List Out) :
    (end_socket env calls out).exit = some (if env.WSACleanup = 0 then 0 else 1) := by
  unfold end_socket
  split <;> simp [cs260_label_end_exit]

theorem cs260_main_connect_failure (m : Bool) (prog a1 a2 : CStr) (env : Env)
    (hurl : 1 ≤ (sscanf_url a1).tokens) (hport : 1 ≤ sscanf_hu a2)
    (hstart : env.WSAStartup = 0) (hpton : env.inet_pton = 1) (hsock : env.socket ≠ none)
    (hconn : env.connect = SOCKET_ERROR) :
    main m [prog, a1, a2] env
      = end_socket env [.WSAStartup, .inet_pton, .socket, .connect]
          [.text "Operation started at: ".toList, .currentTime] := by
  simp only [main, if_neg (not_lt.mpr hurl), if_neg (not_lt.mpr hport), hstart, hpton, hsock,
    hconn, ne_eq, not_true_eq_false, if_false, if_true, List.cons_append, List.nil_append]

end CS260_Assignment3_Client

namespace FakeHttpClient

theorem fake_label_end_calls (env : Env) (calls : List Call) (out : List Out) :
    (label_end env calls out).calls = calls ++ [.WSACleanup] := by
  unfold label_end
  split <;> rfl

theorem fake_label_end_exit (env : Env) (calls : List Call) (out : List Out) :
    (label_end env calls out).exit = some (if env.WSACleanup = 0 then 0 else 1) := by
  unfold label_end
  by_cases h : env.WSACleanup = 0 <;> simp [h]

theorem fake_label_end_out (env : Env) (calls : List Call) (out : List Out) :
    (label_end env calls out).out = out := by
  unfold label_end
  split <;> rfl

theorem fake_end_socket_calls (env : Env) (clock : Clock) (s c : Int) (calls : List Call)
    (out : List Out) :
    (end_socket env clock s c calls out).calls = calls ++ [.closesocket, .WSACleanup] := by
  unfold end_socket
  split <;> simp [fake_label_end_calls]

theorem fake_end_socket_exit (env : Env) (clock : Clock) (s c : Int) (calls : List Call)
    (out : List Out) :
    (end_socket env clock s c calls out).exit = some (if env.WSACleanup = 0 then 0 else 1) := by
  unfold end_socket
  split <;> simp [fake_label_end_exit]

theorem fake_main_connect_failure (prog a1 a2 : CStr) (env : Env) (clock : Clock)
    (hurl : 1 ≤ (sscanf_url a1).tokens) (hport : 1 ≤ sscanf_hu a2)
    (hstart : env.WSAStartup = 0) (hpton : env.inet_pton = 1) (hsock : env.socket ≠ none)
    (hconn : env.connect = SOCKET_ERROR) :
    main [prog, a1, a2] env clock
      = end_socket env clock clock.now_start 0 [.WSAStartup, .inet_pton, .socket, .connect]
          [.text "Operation Started At: ".toList, .currentTime] := by
  simp only [main, if_neg (not_lt.mpr hurl), if_neg (not_lt.mpr hport), hstart, hpton, hsock,
    hconn, ne_eq, not_true_eq_false, if_false, if_true, List.cons_append, List.nil_append]

end FakeHttpClient

/-- C6: in both programs (the three variants), for every run with valid arguments in
which `WSAStartup`, `inet_pton` and `socket` succeed and `connect` returns
`SOCKET_ERROR`: the system calls made are exactly `WSAStartup`, `inet_pton`, `socket`,
`connect`, `closesocket`, `WSACleanup`, in this order (so no `ioctlsocket`, `send`,
`shutdown` or `recv`), and the exit status is 0 when `WSACleanup` returns 0 (and 1 only
when `WSACleanup` itself fails). -/
theorem connect_failure_exit_zero (v : Variant) (prog a1 a2 : CStr) (env : Env) (clock : Clock)
    (hurl : 1 ≤ (sscanf_url a1).tokens) (hport : 1 ≤ sscanf_hu a2)
    (hstart : env.WSAStartup = 0) (hpton : env.inet_pton = 1) (hsock : env.socket ≠ none)
    (hconn : env.connect = SOCKET_ERROR) :
    (v.main [prog, a1, a2] env clock).calls
      = [.WSAStartup, .inet_pton, .socket, .connect, .closesocket, .WSACleanup] ∧
    (v.main [prog, a1, a2] env clock).exit = some (if env.WSACleanup = 0 then 0 else 1) := by
  cases v
  · have e : Variant.immediate.main [prog, a1, a2] env clock
        = CS260_Assignment3_Client.main true [prog, a1, a2] env := rfl
    rw [e, CS260_Assignment3_Client.cs260_main_connect_failure true prog a1 a2 env hurl hport hstart
      hpton hsock hconn]
    exact ⟨CS260_Assignment3_Client.cs260_end_socket_calls _ _ _,
      CS260_Assignment3_Client.cs260_end_socket_exit _ _ _⟩
  · have e : Variant.accumulating.main [prog, a1, a2] env clock
        = CS260_Assignment3_Client.main false [prog, a1, a2] env := rfl
    rw [e, CS260_Assignment3_Client.cs260_main_connect_failure false prog a1 a2 env hurl hport hstart
      hpton hsock hconn]
    exact ⟨CS260_Assignment3_Client.cs260_end_socket_calls _ _ _,
      CS260_Assignment3_Client.cs260_end_socket_exit _ _ _⟩
  · have e : Variant.fake.main [prog, a1, a2] env clock
        = FakeHttpClient.main [prog, a1, a2] env clock := rfl
    rw [e, FakeHttpClient.fake_main_connect_failure prog a1 a2 env clock hurl hport hstart
      hpton hsock hconn]
    exact ⟨FakeHttpClient.fake_end_socket_calls _ _ _ _ _ _, FakeHttpClient.fake_end_socket_exit _ _ _ _ _ _⟩

/-- Scenario B: the peer refuses the connection and the cleanup succeeds; exit status 0. -/
theorem connect_failure_exit_zero_witness :
    (Variant.immediate.main
        ["client".toList, "http://localhost/index.html".toList, "9999".toList]
        ⟨0, 1, some 7, SOCKET_ERROR, 0, [], 0, [], 0, 0, 0⟩ ⟨0, 0, 0⟩).calls
      = [.WSAStartup, .inet_pton, .socket, .connect, .closesocket, .WSACleanup] ∧
    (Variant.immediate.main
        ["client".toList, "http://localhost/index.html".toList, "9999".toList]
        ⟨0, 1, some 7, SOCKET_ERROR, 0, [], 0, [], 0, 0, 0⟩ ⟨0, 0, 0⟩).exit = some 0 :=
  connect_failure_exit_zero .immediate "client".toList "http://localhost/index.html".toList
    "9999".toList ⟨0, 1, some 7, SOCKET_ERROR, 0, [], 0, [], 0, 0, 0⟩ ⟨0, 0, 0⟩
    (by decide) (by decide) rfl rfl (by decide) rfl

/-- C10 (the code at the failing input): `connect` fails, the steady clock reads
5 000 000 000 ticks (5 s after its epoch) before `connect` and 5 001 000 000 ticks after
`closesocket`.  FakeHttpClient then prints `Connected: 5001 ms` and
`Total Elapsed: 1 ms`: `connected_time` was never assigned, so the `Connected` duration
is measured from the clock's epoch and exceeds the total elapsed time. -/
theorem connected_duration_after_connect_failure :
    (FakeHttpClient.main ["client".toList, "http://localhost/index.html".toList, "9999".toList]
        ⟨0, 1, some 7, SOCKET_ERROR, 0, [], 0, [], 0, 0, 0⟩
        ⟨5000000000, 0, 5001000000⟩).out
      = [.text "Operation Started At: ".toList, .currentTime,
          .text "Operation Completed At: ".toList, .currentTime,
          .connected 5001, .totalElapsed 1] ∧
    ¬ ((5001 : Int) ≤ 1) := by
  constructor
  · decide
  · decide

theorem sendCalls_no_closesocket (log : List SendIter) : Call.closesocket ∉ sendCalls log := by
  simp [sendCalls]

theorem sendCalls_no_cleanup (log : List SendIter) : Call.WSACleanup ∉ sendCalls log := by
  simp [sendCalls]

theorem recvCalls_no_closesocket (log : List RecvIter) : Call.closesocket ∉ recvCalls log := by
  simp [recvCalls]

theorem recvCalls_no_cleanup (log : List RecvIter) : Call.WSACleanup ∉ recvCalls log := by
  simp [recvCalls]

theorem CS260_Assignment3_Client.cs260_main_ending (m : Bool) (argv : List CStr) (env : Env) :
    Ending env (CS260_Assignment3_Client.label_end env) (CS260_Assignment3_Client.end_socket env)
      (CS260_Assignment3_Client.main m argv env) := by
  unfold CS260_Assignment3_Client.main
  split
  · dsimp only
    split_ifs
    · exact .usage rfl
    · exact .usage rfl
    · exact .startup rfl (by assumption)
    · exact .cleanup _ _ rfl (by simp) (by simp)
    · exact .cleanup _ _ rfl (by simp) (fun _ => by assumption)
    · exact .close _ _ rfl (by simp) (by simp)
    all_goals
      split
      · exact .unfinished rfl
      · exact .unfinished rfl
      · exact .close _ _ rfl (by simp [sendCalls_no_closesocket])
          (by simp [sendCalls_no_cleanup])
      · split
        · exact .unfinished rfl
        · exact .unfinished rfl
        · exact .close _ _ rfl (by simp [sendCalls_no_closesocket, recvCalls_no_closesocket])
            (by simp [sendCalls_no_cleanup, recvCalls_no_cleanup])
        · split
          · exact .unfinished rfl
          · exact .close _ _ rfl
              (by simp [sendCalls_no_closesocket, recvCalls_no_closesocket])
              (by simp [sendCalls_no_cleanup, recvCalls_no_cleanup])
  · exact .usage rfl

theorem FakeHttpClient.fake_main_ending (argv : List CStr) (env : Env) (clock : Clock) :
    ∃ s c, Ending env (FakeHttpClient.label_end env) (FakeHttpClient.end_socket env clock s c)
      (FakeHttpClient.main argv env clock) := by
  unfold FakeHttpClient.main
  split
  · rename_i a0 a1 a2
    dsimp only
    by_cases h1 : (sscanf_url a1).tokens < 1
    · rw [if_pos h1]; exact ⟨0, 0, .usage rfl⟩
    rw [if_neg h1]
    by_cases h2 : sscanf_hu a2 < 1
    · rw [if_pos h2]; exact ⟨0, 0, .usage rfl⟩
    rw [if_neg h2]
    by_cases h3 : env.WSAStartup ≠ 0
    · rw [if_pos h3]; exact ⟨0, 0, .startup rfl h3⟩
    rw [if_neg h3]
    by_cases h4 : env.inet_pton ≠ 1
    · rw [if_pos h4]; exact ⟨0, 0, .cleanup _ _ rfl (by simp) (by simp)⟩
    rw [if_neg h4]
    by_cases h5 : env.socket = none
    · rw [if_pos h5]; exact ⟨0, 0, .cleanup _ _ rfl (by simp) (fun _ => h5)⟩
    rw [if_neg h5]
    by_cases h6 : env.connect = SOCKET_ERROR
    · rw [if_pos h6]; exact ⟨_, _, .close _ _ rfl (by simp) (by simp)⟩
    rw [if_neg h6, ite_self]
    split
    · exact ⟨0, 0, .unfinished rfl⟩
    · exact ⟨0, 0, .unfinished rfl⟩
    · exact ⟨_, _, .close _ _ rfl (by simp [sendCalls_no_closesocket])
        (by simp [sendCalls_no_cleanup])⟩
    · split
      · exact ⟨0, 0, .unfinished rfl⟩
      · exact ⟨0, 0, .unfinished rfl⟩
      · exact ⟨_, _, .close _ _ rfl
          (by simp [sendCalls_no_closesocket, recvCalls_no_closesocket])
          (by simp [sendCalls_no_cleanup, recvCalls_no_cleanup])⟩
      · exact ⟨_, _, .close _ _ rfl
          (by simp [sendCalls_no_closesocket, recvCalls_no_closesocket])
          (by simp [sendCalls_no_cleanup, recvCalls_no_cleanup])⟩
  · exact ⟨0, 0, .usage rfl⟩

/-- What an ending says about the cleanup calls. -/
theorem Ending.cleanup_calls {env : Env} {label_end end_socket : List Call → List Out → Run}
    {run : Run} (h : Ending env label_end end_socket run)
    (hl : ∀ pre out, (label_end pre out).calls = pre ++ [.WSACleanup])
    (hs : ∀ pre out, (end_socket pre out).calls = pre ++ [.closesocket, .WSACleanup])
    (hexit : run.exit ≠ none) :
    (Call.socket ∈ run.calls → env.socket ≠ none →
      ∃ pre, run.calls = pre ++ [.closesocket, .WSACleanup] ∧
        Call.closesocket ∉ pre ∧ Call.WSACleanup ∉ pre) ∧
    (Call.WSAStartup ∈ run.calls → env.WSAStartup = 0 →
      ∃ pre, run.calls = pre ++ [.WSACleanup] ∧ Call.WSACleanup ∉ pre) := by
  cases h with
  | unfinished h => exact absurd h hexit
  | usage h => rw [h]; simp
  | startup h hs' =>
    rw [h]
    exact ⟨by simp, fun _ h0 => absurd h0 hs'⟩
  | cleanup pre out h h1 h2 =>
    rw [h, hl]
    refine ⟨?_, fun _ _ => ⟨pre, rfl, h1⟩⟩
    intro hmem hsock
    simp only [List.mem_append, List.mem_singleton, reduceCtorEq, or_false] at hmem
    exact absurd (h2 hmem) hsock
  | close pre out h h1 h2 =>
    rw [h, hs]
    refine ⟨fun _ _ => ⟨pre, rfl, h1, h2⟩, fun _ _ => ⟨pre ++ [.closesocket], by simp, ?_⟩⟩
    simp [h2]

theorem sendBody_never_faults :
    Maintains sendBody (fun _ => True) (fun _ => True) (fun _ => True) (fun _ => True) := by
  intro st r _ _
  refine ⟨fun _ _ => trivial, ?_, fun _ _ => trivial, fun _ _ => trivial⟩
  unfold sendBody
  cases r with
  | error e => by_cases h : hardError e = true <;> simp [h]
  | ok n => by_cases h : n = 0 <;> simp [h]

theorem sendBody_finishes_always (r : SendResult) (hr : r.terminal) :
    Finishes sendBody (fun _ => True) r := by
  intro st _ st'
  rcases hr with rfl | ⟨e, rfl, he⟩
  · simp [sendBody]
  · simp [sendBody, he]

/-- The send loop ends when the script holds a result of 0 bytes or a hard error. -/
theorem sendLoop_ends (message : CStr) (sends : List SendResult)
    (h : ∃ r ∈ sends, r.terminal) :
    (∀ st, (sendLoop message sends).fin ≠ .pending st) ∧ (sendLoop message sends).fin ≠ .fault := by
  unfold sendLoop
  constructor
  · obtain ⟨r, hr, ht⟩ := h
    exact doWhile_finishes sendBody _ _ _ _ sendBody_never_faults sends _ trivial
      (fun _ _ => trivial) ⟨r, hr, sendBody_finishes_always r ht⟩
  · exact (doWhile_maintains sendBody _ _ _ _ sendBody_never_faults sends _ trivial
      (fun _ _ => trivial)).2.1

/-- The receive loop ends when the script holds a result of 0 bytes or a hard error and
every result is within the length requested. -/
theorem Variant.recvLoop_ends (v : Variant) (recvs : List RecvResult)
    (h : ∃ r ∈ recvs, r.terminal)
    (hhonoured : ∀ it ∈ (v.recvLoop recvs).log, it.honoured) :
    (∀ st, (v.recvLoop recvs).fin ≠ .pending st) ∧ (v.recvLoop recvs).fin ≠ .fault ∧
    (∀ st, (v.recvLoop recvs).fin = .fallthrough st → v.terminalFlush st ≠ none) := by
  obtain ⟨hfault, _, hflush⟩ := v.recv_safe recvs hhonoured
  refine ⟨?_, hfault, ?_⟩
  · rw [Variant.recvLoop_eq] at hhonoured ⊢
    obtain ⟨r, hr, ht⟩ := h
    exact doWhile_finishes v.recvBody _ _ _ _ v.recvBody_maintains recvs _ recvInv_init
      hhonoured ⟨r, hr, v.recvBody_finishes r ht⟩
  · intro st hst
    obtain ⟨fl, hfl, _⟩ := hflush st hst
    rw [hfl]
    simp

theorem CS260_Assignment3_Client.cs260_main_exits (m : Bool) (argv : List CStr) (env : Env)
    (hs1 : ∀ msg st, (sendLoop msg env.send).fin ≠ .pending st)
    (hs2 : ∀ msg, (sendLoop msg env.send).fin ≠ .fault)
    (hr1 : ∀ st, (recvLoop m env.recv).fin ≠ .pending st)
    (hr2 : (recvLoop m env.recv).fin ≠ .fault)
    (hr3 : ∀ st, (recvLoop m env.recv).fin = .fallthrough st → terminalFlush m st ≠ none) :
    (main m argv env).exit ≠ none := by
  unfold main
  split
  · rename_i a0 a1 a2
    dsimp only
    by_cases h1 : (sscanf_url a1).tokens < 1
    · rw [if_pos h1]; simp
    rw [if_neg h1]
    by_cases h2 : sscanf_hu a2 < 1
    · rw [if_pos h2]; simp
    rw [if_neg h2]
    by_cases h3 : env.WSAStartup ≠ 0
    · rw [if_pos h3]; simp
    rw [if_neg h3]
    by_cases h4 : env.inet_pton ≠ 1
    · rw [if_pos h4, cs260_label_end_exit]; simp
    rw [if_neg h4]
    by_cases h5 : env.socket = none
    · rw [if_pos h5, cs260_label_end_exit]; simp
    rw [if_neg h5]
    by_cases h6 : env.connect = SOCKET_ERROR
    · rw [if_pos h6, cs260_end_socket_exit]; simp
    rw [if_neg h6]
    split
    · rename_i st heq
      exact absurd heq (hs1 _ st)
    · rename_i heq
      exact absurd heq (hs2 _)
    · rw [cs260_end_socket_exit]; simp
    · split
      · rename_i st heq
        exact absurd heq (hr1 st)
      · rename_i heq
        exact absurd heq hr2
      · rw [cs260_end_socket_exit]; simp
      · rename_i st heq
        split
        · rename_i hfl
          exact absurd hfl (hr3 st heq)
        · rw [ite_self, cs260_end_socket_exit]; simp
  · simp

theorem FakeHttpClient.fake_main_exits (argv : List CStr) (env : Env) (clock : Clock)
    (hs1 : ∀ msg st, (sendLoop msg env.send).fin ≠ .pending st)
    (hs2 : ∀ msg, (sendLoop msg env.send).fin ≠ .fault)
    (hr1 : ∀ st, (recvLoop env.recv).fin ≠ .pending st)
    (hr2 : (recvLoop env.recv).fin ≠ .fault) :
    (main argv env clock).exit ≠ none := by
  unfold main
  split
  · rename_i a0 a1 a2
    dsimp only
    by_cases h1 : (sscanf_url a1).tokens < 1
    · rw [if_pos h1]; simp
    rw [if_neg h1]
    by_cases h2 : sscanf_hu a2 < 1
    · rw [if_pos h2]; simp
    rw [if_neg h2]
    by_cases h3 : env.WSAStartup ≠ 0
    · rw [if_pos h3]; simp
    rw [if_neg h3]
    by_cases h4 : env.inet_pton ≠ 1
    · rw [if_pos h4, fake_label_end_exit]; simp
    rw [if_neg h4]
    by_cases h5 : env.socket = none
    · rw [if_pos h5, fake_label_end_exit]; simp
    rw [if_neg h5]
    by_cases h6 : env.connect = SOCKET_ERROR
    · rw [if_pos h6, fake_end_socket_exit]; simp
    rw [if_neg h6, ite_self]
    split
    · rename_i st heq
      exact absurd heq (hs1 _ st)
    · rename_i heq
      exact absurd heq (hs2 _)
    · rw [fake_end_socket_exit]; simp
    · split
      · rename_i st heq
        exact absurd heq (hr1 st)
      · rename_i heq
        exact absurd heq hr2
      · rw [fake_end_socket_exit]; simp
      · rw [fake_end_socket_exit]; simp
  · simp

/-- The cleanup calls of a run that came to an end, in every variant. -/
theorem Variant.main_cleanup (v : Variant) (argv : List CStr) (env : Env) (clock : Clock)
    (hexit : (v.main argv env clock).exit ≠ none) :
    (Call.socket ∈ (v.main argv env clock).calls → env.socket ≠ none →
      ∃ pre, (v.main argv env clock).calls = pre ++ [.closesocket, .WSACleanup] ∧
        Call.closesocket ∉ pre ∧ Call.WSACleanup ∉ pre) ∧
    (Call.WSAStartup ∈ (v.main argv env clock).calls → env.WSAStartup = 0 →
      ∃ pre, (v.main argv env clock).calls = pre ++ [.WSACleanup] ∧ Call.WSACleanup ∉ pre) := by
  cases v
  · exact (CS260_Assignment3_Client.cs260_main_ending true argv env).cleanup_calls
      (CS260_Assignment3_Client.cs260_label_end_calls env)
      (CS260_Assignment3_Client.cs260_end_socket_calls env) hexit
  · exact (CS260_Assignment3_Client.cs260_main_ending false argv env).cleanup_calls
      (CS260_Assignment3_Client.cs260_label_end_calls env)
      (CS260_Assignment3_Client.cs260_end_socket_calls env) hexit
  · obtain ⟨s, c, h⟩ := FakeHttpClient.fake_main_ending argv env clock
    exact h.cleanup_calls (FakeHttpClient.fake_label_end_calls env)
      (FakeHttpClient.fake_end_socket_calls env clock s c) hexit

/-- A run comes to an end when both scripts hold a result that ends their loop. -/
theorem Variant.main_exits (v : Variant) (argv : List CStr) (env : Env) (clock : Clock)
    (hsend : ∃ r ∈ env.send, r.terminal) (hrecv : ∃ r ∈ env.recv, r.terminal)
    (hhonoured : ∀ it ∈ (v.recvLoop env.recv).log, it.honoured) :
    (v.main argv env clock).exit ≠ none := by
  have hs := fun msg => sendLoop_ends msg env.send hsend
  obtain ⟨hr1, hr2, hr3⟩ := v.recvLoop_ends env.recv hrecv hhonoured
  cases v
  · exact CS260_Assignment3_Client.cs260_main_exits true argv env (fun msg => (hs msg).1)
      (fun msg => (hs msg).2) hr1 hr2 hr3
  · exact CS260_Assignment3_Client.cs260_main_exits false argv env (fun msg => (hs msg).1)
      (fun msg => (hs msg).2) hr1 hr2 hr3
  · exact FakeHttpClient.fake_main_exits argv env clock (fun msg => (hs msg).1)
      (fun msg => (hs msg).2) hr1 hr2

/-- C8: in both programs (the three variants) and whatever the system calls return.
A run comes to an end (returns an exit status) as soon as the `send` results and the
`recv` results each hold one that ends their loop (0 bytes or an error other than
would-block) and every `recv` result is within the length requested.  On every run that
came to an end and on which `socket()` succeeded, the calls are some calls without
`closesocket` or `WSACleanup`, then `closesocket`, then `WSACleanup`: `closesocket` is
called exactly once and after every other operation on the socket.  On every run that
came to an end and on which `WSAStartup` succeeded, `WSACleanup` is called exactly once
and is the last call; this covers the paths where `inet_pton`, `socket` or `closesocket`
failed. -/
theorem cleanup_on_every_path (v : Variant) (argv : List CStr) (env : Env) (clock : Clock) :
    ((∃ r ∈ env.send, r.terminal) → (∃ r ∈ env.recv, r.terminal) →
      (∀ it ∈ (v.recvLoop env.recv).log, it.honoured) →
      (v.main argv env clock).exit ≠ none) ∧
    ((v.main argv env clock).exit ≠ none →
      (Call.socket ∈ (v.main argv env clock).calls → env.socket ≠ none →
        ∃ pre, (v.main argv env clock).calls = pre ++ [.closesocket, .WSACleanup] ∧
          Call.closesocket ∉ pre ∧ Call.WSACleanup ∉ pre) ∧
      (Call.WSAStartup ∈ (v.main argv env clock).calls → env.WSAStartup = 0 →
        ∃ pre, (v.main argv env clock).calls = pre ++ [.WSACleanup] ∧
          Call.WSACleanup ∉ pre)) :=
  ⟨v.main_exits argv env clock, v.main_cleanup argv env clock⟩

/-- A concrete run of FakeHttpClient in which `send` fails with `WSAECONNRESET` after a
would-block result and `closesocket` fails as well: the run ends, with `closesocket` and
then `WSACleanup` as its last calls. -/
theorem cleanup_on_every_path_witness :
    (Variant.fake.main ["client".toList, "http://localhost/index.html".toList, "9999".toList]
        ⟨0, 1, some 7, 0, 0, [.error WSAEWOULDBLOCK, .error 10054], 0, [.ok []], 0, 1, 0⟩
        ⟨0, 0, 0⟩).exit ≠ none ∧
    ∃ pre,
      (Variant.fake.main ["client".toList, "http://localhost/index.html".toList, "9999".toList]
        ⟨0, 1, some 7, 0, 0, [.error WSAEWOULDBLOCK, .error 10054], 0, [.ok []], 0, 1, 0⟩
        ⟨0, 0, 0⟩).calls = pre ++ [.closesocket, .WSACleanup] ∧
      Call.closesocket ∉ pre ∧ Call.WSACleanup ∉ pre :=
  have hexit := (cleanup_on_every_path .fake
      ["client".toList, "http://localhost/index.html".toList, "9999".toList]
      ⟨0, 1, some 7, 0, 0, [.error WSAEWOULDBLOCK, .error 10054], 0, [.ok []], 0, 1, 0⟩
      ⟨0, 0, 0⟩).1
    ⟨.error 10054, by decide, Or.inr ⟨10054, rfl, by decide⟩⟩
    ⟨.ok [], by decide, Or.inl rfl⟩
    (Variant.unbuffered_honoured .fake (Or.inr rfl) _ (by decide))
  ⟨hexit, ((cleanup_on_every_path .fake
      ["client".toList, "http://localhost/index.html".toList, "9999".toList]
      ⟨0, 1, some 7, 0, 0, [.error WSAEWOULDBLOCK, .error 10054], 0, [.ok []], 0, 1, 0⟩
      ⟨0, 0, 0⟩).2 hexit).1 (by decide) (by decide)⟩

theorem toMilliseconds_mono (a b : Int) (ha : 0 ≤ a) (hab : a ≤ b) :
    0 ≤ toMilliseconds a ∧ toMilliseconds a ≤ toMilliseconds b := by
  unfold toMilliseconds
  rw [Int.tdiv_eq_ediv ha (by decide), Int.tdiv_eq_ediv (le_trans ha hab) (by decide)]
  exact ⟨Int.ediv_nonneg ha (by decide), Int.ediv_le_ediv (by decide) hab⟩

theorem recvOut_no_connected (log : List RecvIter) (d : Int) : Out.connected d ∉ recvOut log := by
  simp [recvOut]

theorem recvOut_no_total (log : List RecvIter) (d : Int) : Out.totalElapsed d ∉ recvOut log := by
  simp [recvOut]

/-- The two durations printed at `end_socket`, when nothing printed before is a
duration. -/
theorem fake_end_socket_report (env : Env) (clock : Clock) (s c : Int) (calls : List Call)
    (out : List Out) (h1 : ∀ d, Out.connected d ∉ out) (h2 : ∀ d, Out.totalElapsed d ∉ out)
    (x t : Int)
    (hx : Out.connected x ∈ (FakeHttpClient.end_socket env clock s c calls out).out)
    (ht : Out.totalElapsed t ∈ (FakeHttpClient.end_socket env clock s c calls out).out) :
    x = toMilliseconds (clock.now_end - c) ∧ t = toMilliseconds (clock.now_end - s) := by
  unfold FakeHttpClient.end_socket at hx ht
  dsimp only at hx ht
  by_cases hc : env.closesocket ≠ 0
  · rw [if_pos hc, FakeHttpClient.fake_label_end_out] at hx
    exact absurd hx (h1 x)
  · rw [if_neg hc, FakeHttpClient.fake_label_end_out] at hx ht
    simp only [List.mem_append, List.mem_cons, List.mem_singleton, reduceCtorEq,
      Out.connected.injEq, Out.totalElapsed.injEq, List.not_mem_nil, or_false, false_or]
      at hx ht
    rcases hx with hx | hx
    · exact absurd hx (h1 x)
    rcases ht with ht | ht
    · exact absurd ht (h2 t)
    exact ⟨hx, ht⟩

/-- On every run of FakeHttpClient in which `connect` succeeded and the monotonic clock
read `start_time ≤ connected_time ≤ end_time`, the `Connected` duration that is printed
is non-negative and at most the `Total Elapsed` duration that is printed. -/
theorem fake_durations_after_connect (argv : List CStr) (env : Env) (clock : Clock)
    (hconn : env.connect ≠ SOCKET_ERROR)
    (h1 : clock.now_start ≤ clock.now_connected) (h2 : clock.now_connected ≤ clock.now_end)
    (x t : Int)
    (hx : Out.connected x ∈ (FakeHttpClient.main argv env clock).out)
    (ht : Out.totalElapsed t ∈ (FakeHttpClient.main argv env clock).out) :
    0 ≤ x ∧ x ≤ t := by
  have key : ∀ calls out, (∀ d, Out.connected d ∉ out) → (∀ d, Out.totalElapsed d ∉ out) →
      Out.connected x ∈ (FakeHttpClient.end_socket env clock clock.now_start
        clock.now_connected calls out).out →
      Out.totalElapsed t ∈ (FakeHttpClient.end_socket env clock clock.now_start
        clock.now_connected calls out).out → 0 ≤ x ∧ x ≤ t := by
    intro calls out ho1 ho2 hx' ht'
    obtain ⟨rfl, rfl⟩ := fake_end_socket_report env clock _ _ calls out ho1 ho2 x t hx' ht'
    exact toMilliseconds_mono _ _ (by omega) (by omega)
  generalize hrun : FakeHttpClient.main argv env clock = run at hx ht
  unfold FakeHttpClient.main at hrun
  split at hrun
  · rename_i a0 a1 a2
    dsimp only at hrun
    by_cases c1 : (sscanf_url a1).tokens < 1
    · rw [if_pos c1] at hrun; subst hrun; simp at hx
    rw [if_neg c1] at hrun
    by_cases c2 : sscanf_hu a2 < 1
    · rw [if_pos c2] at hrun; subst hrun; simp at hx
    rw [if_neg c2] at hrun
    by_cases c3 : env.WSAStartup ≠ 0
    · rw [if_pos c3] at hrun; subst hrun; simp at hx
    rw [if_neg c3] at hrun
    by_cases c4 : env.inet_pton ≠ 1
    · rw [if_pos c4] at hrun; subst hrun
      rw [FakeHttpClient.fake_label_end_out] at hx; simp at hx
    rw [if_neg c4] at hrun
    by_cases c5 : env.socket = none
    · rw [if_pos c5] at hrun; subst hrun
      rw [FakeHttpClient.fake_label_end_out] at hx; simp at hx
    rw [if_neg c5, if_neg hconn, ite_self] at hrun
    split at hrun
    · subst hrun; simp at hx
    · subst hrun; simp at hx
    · subst hrun; exact key _ _ (by simp) (by simp) hx ht
    · split at hrun
      · subst hrun; simp [recvOut_no_connected] at hx
      · subst hrun; simp [recvOut_no_connected] at hx
      · subst hrun
        exact key _ _ (by simp [recvOut_no_connected]) (by simp [recvOut_no_total]) hx ht
      · subst hrun
        exact key _ _ (by simp [recvOut_no_connected]) (by simp [recvOut_no_total]) hx ht
  · subst hrun; simp at hx

/-- The accumulating loop on a chunk that fills the buffer writes the buffer out and
starts over with the rest of the script. -/
theorem cs260_accumulating_fill (d : List Char) (hlen : d.length = 1499)
    (rest : List RecvResult) :
    (CS260_Assignment3_Client.recvLoop false (.ok d :: rest)).log
      = ⟨0, 1500, .ok d, some (0, d.takeWhile (fun c => c != NUL))⟩
        :: (CS260_Assignment3_Client.recvLoop false rest).log := by
  have hd : (d.length : Int) ≤ RecvState.init.recvBufferLength - 1 := by
    rw [init_length]; omega
  have hfull : RecvState.init.recvBufferLength - (d.length : Int) ≤ 1 := by
    rw [init_length]; omega
  have hb1 := CS260_Assignment3_Client.cs260_recvBody_accumulating_ok RecvState.init
    recvInv_init d hd
  rw [if_pos hfull, if_pos (by omega)] at hb1
  unfold CS260_Assignment3_Client.recvLoop
  rw [doWhile_cons_next _ _ _ _ _ _ hb1]
  simp only [List.singleton_append, init_offset, init_length, pendingBytes_init,
    List.nil_append]
  rfl

/-- Scenario D: in accumulating mode a response of 1501 bytes, longer than the receive
buffer and received as 1499 bytes and then 2 bytes, is written out complete, in two
flushes, followed by the newline of the terminal flush. -/
theorem accumulating_mode_across_flush :
    CS260_Assignment3_Client.received false
        [.ok (List.replicate 1499 'a'), .ok ['b', 'c'], .ok []]
      = some (List.replicate 1499 'a' ++ ['b', 'c'] ++ [Char.ofNat 10]) := by
  have h := Variant.received_of_split .accumulating
    [.ok (List.replicate 1499 'a'), .ok ['b', 'c']] []
    (by
      intro r hr
      simp only [List.mem_cons, List.mem_singleton, List.not_mem_nil, or_false] at hr
      rcases hr with rfl | rfl
      · exact Or.inr ⟨_, rfl, by rw [List.length_replicate]; decide⟩
      · exact Or.inr ⟨_, rfl, by decide⟩)
    (by
      intro r hr
      simp only [List.mem_cons, List.mem_singleton, List.not_mem_nil, or_false] at hr
      rcases hr with rfl | rfl
      · simp only [RecvResult.bytes, List.mem_replicate, not_and]
        intro _
        decide
      · decide)
    (by
      show ∀ it ∈ (CS260_Assignment3_Client.recvLoop false
        [.ok (List.replicate 1499 'a'), .ok ['b', 'c'], .ok []]).log, it.honoured
      rw [cs260_accumulating_fill _ (List.length_replicate _ _),
        CS260_Assignment3_Client.cs260_accumulating_one_chunk _ (by decide) (by decide)]
      intro it hit d hd
      simp only [List.mem_cons, List.mem_singleton, List.not_mem_nil, or_false] at hit
      rcases hit with rfl | rfl | rfl
      · simp only [RecvResult.ok.injEq] at hd
        subst hd
        simp only [List.length_replicate]
        decide
      · simp only [RecvResult.ok.injEq] at hd
        subst hd
        decide
      · simp only [RecvResult.ok.injEq] at hd
        subst hd
        decide)
  simp only [RecvResult.bytes, Variant.trailer, List.map_cons, List.map_nil,
    List.flatten_cons, List.flatten_nil, List.append_nil, if_true, List.cons_append,
    List.nil_append] at h
  exact h

end FakeHttp
